import Mathlib

/-!
# fluidctl: the credential manager (`internal/auth/auth.go`)

A shallow embedding of `auth.Login` and the functions it calls, and of
`utils.ParseAttrs` with `parseFilesystemFlag` (`internal/instance/instance.go`).

* Go strings are Lean strings; byte slices are lists of `Byte`.
* Everything outside the program (flags, the token file, the clock, the
  random source, the callback requests, the token endpoint, and the library
  functions `jwt.ParseUnverified` and `sha256.Sum256`) is a field of `World`.
* A run yields a `Result`: what `Login` returned (or that it never returns),
  the calls it made to the outside in program order, and the token file
  afterwards.
* Library calls are modelled by what the library does: `time.Unix`, `time.Now`
  and `Time.After` on the seconds since year 1 that a `time.Time` keeps in an
  `int64` (so `time.Unix` wraps for seconds beyond its range),
  `hex.EncodeToString`, `base64.RawURLEncoding`, `strings.TrimSpace`,
  `oauth2.Config.AuthCodeURL` (kept as endpoint and `url.Values`).
-/

namespace Fluidctl

/-! ## Data -/

abbrev Byte := Fin 256

/-- Go error values, as far as `Login` tells them apart. -/
inductive GoError where
  /-- an error made outside this package; `notExist` is what `os.IsNotExist` says of it -/
  | ext (notExist : Bool)
  /-- Go `errors.New msg` -/
  | new (msg : String)
  /-- Go `fmt.Errorf` with the message `msg` and the cause formatted by `%w` or `%v` -/
  | errorf (msg : String) (cause : GoError)
  deriving DecidableEq, Repr

/-- Go `os.IsNotExist`: looks through `*PathError` and the like only, never through
an error built by `fmt.Errorf`. -/
def osIsNotExist : GoError → Bool
  | .ext b => b
  | .new _ => false
  | .errorf _ _ => false

/-- A finite `float64`: the number `mant * 2 ^ exp2`. The numbers of a decoded
JSON document are finite. -/
structure Float64 where
  mant : Int
  exp2 : Int
  deriving DecidableEq, Repr

/-- What `jwt.NewParser().ParseUnverified(tokenString, jwt.MapClaims{})` gives. -/
inductive Parsed where
  /-- The parse fails: `err != nil` -/
  | failed (err : GoError)
  /-- The claims are a `jwt.MapClaims`; `exp` is `claims["exp"]` when that
  value is a `float64` -/
  | mapClaims (exp : Option Float64)
  /-- The claims are of another type -/
  | otherClaims
  deriving DecidableEq, Repr

/-- The token file `~/.fluidstack/token` and its directory. Permission bits are
the ones requested when the entry was created. -/
structure TokenStore where
  /-- permission bits of `~/.fluidstack`, `none` when it does not exist -/
  dir : Option Nat
  /-- content and permission bits of the token file, `none` when it does not exist -/
  file : Option (String × Nat)
  deriving DecidableEq, Repr

/-- A request that the default mux hands to the handler registered for `GET /`:
its parsed query string, in order. -/
structure Request where
  query : List (String × String)
  deriving DecidableEq, Repr

/-- Go `url.Values.Get`: the first value of the key, or the empty string. -/
def valuesGet (v : List (String × String)) (key : String) : String :=
  (v.lookup key).getD ""

/-- Go `url.Values.Set`: replaces the value of the key, or adds the key. -/
def valuesSet (v : List (String × String)) (key value : String) : List (String × String) :=
  if v.any (fun kv => kv.1 == key) then
    v.map (fun kv => if kv.1 == key then (key, value) else kv)
  else v ++ [(key, value)]

/-- An authorization URL before encoding: the endpoint and the query values. -/
structure AuthURL where
  endpoint : String
  values : List (String × String)
  deriving DecidableEq, Repr

/-- Calls to the outside, in program order. -/
inductive Event where
  /-- Go `homedir.Expand(defaultTokenFile)` -/
  | expandHome
  /-- Go `os.ReadFile(tokenFile)` -/
  | readFile
  /-- Go `jwt.NewParser().ParseUnverified(tokenString, ...)` -/
  | parseToken (tokenString : String)
  /-- Go `time.Now()` -/
  | timeNow
  /-- Go `io.ReadFull(rand.Reader, buf)` with `len(buf) = count` -/
  | readRandom (count : Nat)
  /-- The statement `go server.ListenAndServe()` on `:5173` -/
  | listenAndServe
  /-- Go `browser.OpenURL(authURL)` -/
  | openURL (authURL : AuthURL)
  /-- the handler answered a callback request with this status -/
  | respond (status : Nat)
  /-- Go `server.Close()` (deferred) -/
  | serverClose
  /-- Go `config.Exchange(ctx, code, SetAuthURLParam("code_verifier", codeVerifier))` -/
  | exchange (code codeVerifier : String)
  /-- Go `os.MkdirAll(filepath.Dir(tokenFile), perm)` -/
  | mkdirAll (perm : Nat)
  /-- Go `os.WriteFile(tokenFile, data, perm)` -/
  | writeFile (data : String) (perm : Nat)
  deriving DecidableEq, Repr

/-- Everything outside the program during one invocation. -/
structure World where
  /-- value of `--token` -/
  tokenFlag : String
  /-- value of `--client-id` -/
  clientIdFlag : String
  /-- value of `--client-secret` -/
  clientSecretFlag : String
  /-- error of `homedir.Expand`, if it fails -/
  expandErr : Option GoError
  /-- the token file and its directory before the run -/
  store : TokenStore
  /-- error of `os.ReadFile` when it fails for another reason than the token file
  not being there (permission denied, a path element that is not a directory,
  the path being a directory), whether or not the file is there -/
  readErr : Option GoError
  /-- error of `os.MkdirAll`, if it fails -/
  mkdirErr : Option GoError
  /-- error of `os.WriteFile`, if it fails -/
  writeErr : Option GoError
  /-- Go `jwt.NewParser().ParseUnverified` -/
  parseUnverified : String → Parsed
  /-- result of converting to `int64` a float that `int64` cannot represent
  (implementation-dependent in Go) -/
  int64Unrepresentable : Float64 → Int
  /-- Go `time.Now()`, in nanoseconds since the Unix epoch -/
  now : Int
  /-- The wall clock reads an instant that a `time.Time` holds: its seconds
  since year 1 are within `int64` -/
  nowInRange : -9223372036854775808 ≤ now / 1000000000 + 62135596800 ∧
    now / 1000000000 + 62135596800 < 9223372036854775808
  /-- bytes that `rand.Reader` still yields; a read of more bytes than are
  left is a read that fails -/
  rand : List Byte
  /-- Go `sha256.Sum256` -/
  sum256 : List Byte → List Byte
  /-- whether the listener gets to bind port 5173 -/
  bindOk : Bool
  /-- the requests reaching the handler, in order; after the last one none arrives -/
  callbacks : List Request
  /-- the token endpoint: access token or error, for a code and a code verifier -/
  tokenEndpoint : String → String → Except GoError String

/-- What a call of `Login` comes to. -/
inductive Outcome where
  /-- The call returns: `return token, err` -/
  | returns (token : String) (err : Option GoError)
  /-- the call never returns -/
  | blocks
  deriving DecidableEq, Repr

/-- A run of `Login`. -/
structure Result where
  outcome : Outcome
  trace : List Event
  store : TokenStore
  deriving DecidableEq, Repr

/-! ## Constants (`auth.go`, lines 25-33) -/

def defaultIssuer : String := "https://fluidstack.us.auth0.com/"
def defaultAuthURL : String := "https://fluidstack.us.auth0.com/authorize"
def defaultTokenURL : String := "https://fluidstack.us.auth0.com/oauth/token"
def defaultClientID : String := "diPhN35HH6jVXs615vsafkdIQM4Y5rF8"
def defaultAudience : String := "https://api.fluidstack.io"
def defaultRedirect : String := "http://localhost:5173"
def defaultTokenFile : String := "~/.fluidstack/token"

/-! ## Library functions -/

/-- Go `[]byte(s)`: the UTF-8 bytes of a string. -/
def bytesOf (s : String) : List Byte :=
  s.toUTF8.data.toList.map (fun b => b.val)

/-- Go `unicode.IsSpace`. -/
def isSpace (c : Char) : Bool :=
  c = '\t' || c = '\n' || c.toNat = 0x0B || c.toNat = 0x0C || c = '\r' || c = ' ' ||
  c.toNat = 0x85 || c.toNat = 0xA0 || c.toNat = 0x1680 ||
  (0x2000 ≤ c.toNat && c.toNat ≤ 0x200A) ||
  c.toNat = 0x2028 || c.toNat = 0x2029 || c.toNat = 0x202F || c.toNat = 0x205F ||
  c.toNat = 0x3000

/-- Go `strings.TrimSpace`. -/
def trimSpace (s : String) : String :=
  String.mk (((s.data.dropWhile isSpace).reverse.dropWhile isSpace).reverse)

/-- An `int64` that holds the integer: arithmetic in `int64` wraps around. -/
def wrapInt64 (n : Int) : Int :=
  (n + 9223372036854775808) % 18446744073709551616 - 9223372036854775808

/-- Go `int64(x)` for a float `x`: the fraction is discarded (truncation towards
zero); a value out of range converts to an implementation-dependent `int64`. -/
def int64OfFloat (unrepresentable : Float64 → Int) (x : Float64) : Int :=
  let t : Int :=
    if 0 ≤ x.exp2 then x.mant * 2 ^ x.exp2.toNat else x.mant.tdiv (2 ^ (-x.exp2).toNat)
  if -(2 : Int) ^ 63 ≤ t ∧ t < (2 : Int) ^ 63 then t else wrapInt64 (unrepresentable x)

/-- A `time.Time` without a monotonic clock reading, or with one when compared
to a time without: seconds since January 1 of year 1, kept in an `int64`, and
nanoseconds within the second. -/
structure Time where
  sec : Int
  nsec : Int
  deriving DecidableEq, Repr

/-- The constant `unixToInternal` of package `time`: the seconds from year 1 to
the Unix epoch. -/
def unixToInternal : Int := 62135596800

/-- Go `time.Unix(sec, 0)`: the sum `sec + unixToInternal` is made in `int64`. -/
def timeUnix (sec : Int) : Time := ⟨wrapInt64 (sec + unixToInternal), 0⟩

/-- Go `time.Now()` when the wall clock reads `unixNano` nanoseconds since the
Unix epoch. -/
def timeNow (unixNano : Int) : Time :=
  ⟨wrapInt64 (unixNano / 1000000000 + unixToInternal), unixNano % 1000000000⟩

/-- Go `t.After(u)`, for a `u` without a monotonic clock reading. -/
def timeAfter (t u : Time) : Bool :=
  decide (u.sec < t.sec ∨ (t.sec = u.sec ∧ u.nsec < t.nsec))

/-- Spec side: the instant `sec` whole seconds after the Unix epoch, in
nanoseconds since the Unix epoch. -/
def unixInstant (sec : Int) : Int := sec * 1000000000

/-- Spec side: `t` is the float `x` with its fraction discarded (`x` truncated
towards zero). -/
@[reducible]
def IsWholeSecondsOf (x : Float64) (t : Int) : Prop :=
  if 0 ≤ x.exp2 then t = x.mant * 2 ^ x.exp2.toNat
  else if 0 ≤ x.mant then
    t * 2 ^ (-x.exp2).toNat ≤ x.mant ∧ x.mant < (t + 1) * 2 ^ (-x.exp2).toNat
  else
    (t - 1) * 2 ^ (-x.exp2).toNat < x.mant ∧ x.mant ≤ t * 2 ^ (-x.exp2).toNat

def hextable : List Char := "0123456789abcdef".toList

/-- Go `hex.EncodeToString`. -/
def hexEncodeToString (src : List Byte) : String :=
  String.mk (src.flatMap fun v =>
    [hextable.getD (v.val >>> 4) '0', hextable.getD (v.val &&& 0x0f) '0'])

def encodeURL : List Char :=
  "ABCDEFGHIJKLMNOPQRSTUVWXYZabcdefghijklmnopqrstuvwxyz0123456789-_".toList

/-- One output character of base64: `enc.encode[val & 0x3F]`. -/
def b64 (val : Nat) : Char := encodeURL.getD (val &&& 0x3F) 'A'

/-- The loop of `base64.Encoding.Encode` for an encoding without padding. -/
def rawURLEncode : List Byte → List Char
  | a :: b :: c :: rest =>
    let val := a.val <<< 16 ||| b.val <<< 8 ||| c.val
    b64 (val >>> 18) :: b64 (val >>> 12) :: b64 (val >>> 6) :: b64 val :: rawURLEncode rest
  | [a, b] =>
    let val := a.val <<< 16 ||| b.val <<< 8
    [b64 (val >>> 18), b64 (val >>> 12), b64 (val >>> 6)]
  | [a] =>
    let val := a.val <<< 16
    [b64 (val >>> 18), b64 (val >>> 12)]
  | [] => []

/-- Go `base64.RawURLEncoding.EncodeToString`. -/
def rawURLEncodeToString (src : List Byte) : String :=
  String.mk (rawURLEncode src)

/-- A running hash (`hash.Hash`): the data written so far. -/
structure Digest where
  written : List Byte

/-- Go `sha256.New()`. -/
def sha256New : Digest := ⟨[]⟩

/-- Go `h.Write(p)`. -/
def Digest.write (h : Digest) (p : List Byte) : Digest := ⟨h.written ++ p⟩

/-- Go `h.Sum(b)`: appends the hash of the data written so far to `b`. -/
def Digest.sum (sum256 : List Byte → List Byte) (h : Digest) (b : List Byte) : List Byte :=
  b ++ sum256 h.written

/-- Go `io.ReadFull(rand.Reader, buf)` with `len(buf) = count`: the bytes read
and the rest of the source, or an error. -/
def readFull (count : Nat) (src : List Byte) : Except GoError (List Byte) × List Byte :=
  if count ≤ src.length then (.ok (src.take count), src.drop count)
  else (.error (.ext false), [])

/-- The fields of `oauth2.Config` that `Login` sets. -/
structure Config where
  clientID : String
  redirectURL : String
  scopes : List String
  authURL : String
  tokenURL : String

/-- Go `oauth2.Config.AuthCodeURL(state, opts...)`, each option being a
`SetAuthURLParam(key, value)`. -/
def Config.authCodeURL (c : Config) (state : String) (opts : List (String × String)) : AuthURL :=
  let v : List (String × String) := [("response_type", "code"), ("client_id", c.clientID)]
  let v := if c.redirectURL ≠ "" then valuesSet v "redirect_uri" c.redirectURL else v
  let v := if c.scopes.length > 0 then valuesSet v "scope" (" ".intercalate c.scopes) else v
  let v := if state ≠ "" then valuesSet v "state" state else v
  let v := opts.foldl (fun v kv => valuesSet v kv.1 kv.2) v
  ⟨c.authURL, v⟩

/-! ## The program (`internal/auth/auth.go`) -/

/-- Function `isTokenExpired` (lines 35-55): the pair it returns and the calls it makes. -/
def isTokenExpired (w : World) (tokenString : String) : (Bool × Option GoError) × List Event :=
  match w.parseUnverified tokenString with
  | .failed err =>
    ((false, some (.errorf "failed to parse token" err)), [.parseToken tokenString])
  | .mapClaims (some exp) =>
    let expirationTime := timeUnix (int64OfFloat w.int64Unrepresentable exp)
    if timeAfter (timeNow w.now) expirationTime then
      ((true, none), [.parseToken tokenString, .timeNow])
    else
      ((false, none), [.parseToken tokenString, .timeNow])
  | .mapClaims none =>
    ((false, some (.new "token does not contain an expiration claim")), [.parseToken tokenString])
  | .otherClaims =>
    ((false, some (.new "invalid token claims")), [.parseToken tokenString])

/-- Go `os.ReadFile(tokenFile)`: it fails with the error of the world when there
is one, and otherwise with an error of which `os.IsNotExist` holds when the
file is not there. -/
def osReadFile (w : World) : Except GoError String :=
  match w.readErr with
  | some err => .error err
  | none =>
    match w.store.file with
    | none => .error (.ext true)
    | some (content, _) => .ok content

/-- Function `readToken` (lines 57-69): the pair it returns and the calls it makes. -/
def readToken (w : World) : (String × Option GoError) × List Event :=
  match w.expandErr with
  | some err =>
    (("", some (.errorf "failed to expand token file path" err)), [.expandHome])
  | none =>
    match osReadFile w with
    | .error err => (("", some err), [.expandHome, .readFile])
    | .ok token => ((trimSpace token, none), [.expandHome, .readFile])

/-- Function `writeToken` (lines 71-88): the error, the calls made and the token store
afterwards. An existing directory or file keeps its permission bits; a write
that fails is taken to leave the file as it was. -/
def writeToken (w : World) (token : String) : Option GoError × List Event × TokenStore :=
  match w.expandErr with
  | some err =>
    (some (.errorf "failed to expand token file path" err), [.expandHome], w.store)
  | none =>
    match w.mkdirErr with
    | some err =>
      (some (.errorf "failed to create token file directory" err),
        [.expandHome, .mkdirAll 0o700], w.store)
    | none =>
      let made : TokenStore := { w.store with dir := some (w.store.dir.getD 0o700) }
      match w.writeErr with
      | some err =>
        (some (.errorf "failed to write token file" err),
          [.expandHome, .mkdirAll 0o700, .writeFile token 0o600], made)
      | none =>
        (none, [.expandHome, .mkdirAll 0o700, .writeFile token 0o600],
          { made with file := some (token, ((w.store.file.map Prod.snd).getD 0o600)) })

/-- Function `randomBytesInHex` (lines 90-98): the pair it returns and the rest of the
random source. -/
def randomBytesInHex (count : Nat) (src : List Byte) : (String × Option GoError) × List Byte :=
  match readFull count src with
  | (.error err, rest) =>
    (("", some (.errorf ("Could not generate " ++ toString count ++ " random bytes") err)), rest)
  | (.ok buf, rest) => ((hexEncodeToString buf, none), rest)

/-- Function `GenerateCodeChallenge` (lines 100-104). -/
def GenerateCodeChallenge (sum256 : List Byte → List Byte) (verifier : String) : String :=
  let hash := sum256 (bytesOf verifier)
  rawURLEncodeToString hash

/-- The handler of `waitForAuthorizationCode` (lines 175-200) over the requests
that arrive: the code sent on `codeChan`, if one ever is, and the responses. A
request without a code is answered 400 and nothing is sent on the channel. -/
def serveCallbacks : List Request → Option String × List Event
  | [] => (none, [])
  | r :: rest =>
    let code := valuesGet r.query "code"
    if code = "" then
      ((serveCallbacks rest).1, .respond 400 :: (serveCallbacks rest).2)
    else
      (some code, [.respond 200])

/-- Function `waitForAuthorizationCode` (lines 170-209): the pair it returns, or `none`
when the receive on `codeChan` never completes, and the calls made. The error
of `ListenAndServe` is dropped by the source; when the port is not bound no
request reaches the handler. -/
def waitForAuthorizationCode (w : World) (authURL : AuthURL) :
    Option (String × Option GoError) × List Event :=
  let served := if w.bindOk then serveCallbacks w.callbacks else (none, [])
  match served.1 with
  | none => (none, [.listenAndServe, .openURL authURL] ++ served.2)
  | some code =>
    (some (code, none), [.listenAndServe, .openURL authURL] ++ served.2 ++ [.serverClose])

/-- The `oauth2.Config` of `Login` (lines 130-138). -/
def loginConfig : Config :=
  { clientID := defaultClientID
    redirectURL := defaultRedirect
    scopes := ["openid", "profile", "email", "offline_access"]
    authURL := defaultAuthURL
    tokenURL := defaultTokenURL }

/-- Function `Login`, lines 121-166: the interactive login flow. -/
def loginFlow (w : World) : Result :=
  let r1 := randomBytesInHex 32 w.rand
  match r1.1.2 with
  | some verifierErr =>
    ⟨.returns "" (some (.errorf "failed to create code verifier" verifierErr)),
      [.readRandom 32], w.store⟩
  | none =>
    let codeVerifier := r1.1.1
    let hash := sha256New
    let hash := hash.write (bytesOf codeVerifier)
    let codeChallenge := rawURLEncodeToString (hash.sum w.sum256 [])
    let config := loginConfig
    let r2 := randomBytesInHex 24 r1.2
    match r2.1.2 with
    | some stateErr =>
      ⟨.returns "" (some (.errorf "failed to generate random state" stateErr)),
        [.readRandom 32, .readRandom 24], w.store⟩
    | none =>
      let state := r2.1.1
      let authURL := config.authCodeURL state
        [("code_challenge_method", "S256"), ("code_challenge", codeChallenge),
          ("audience", defaultAudience)]
      let r3 := waitForAuthorizationCode w authURL
      match r3.1 with
      | none => ⟨.blocks, [.readRandom 32, .readRandom 24] ++ r3.2, w.store⟩
      | some (_, some err) =>
        ⟨.returns "" (some err), [.readRandom 32, .readRandom 24] ++ r3.2, w.store⟩
      | some (code, none) =>
        match w.tokenEndpoint code codeVerifier with
        | .error err =>
          ⟨.returns "" (some (.errorf "failed to exchange authorization code" err)),
            [.readRandom 32, .readRandom 24] ++ r3.2 ++ [.exchange code codeVerifier], w.store⟩
        | .ok accessToken =>
          let r4 := writeToken w accessToken
          match r4.1 with
          | some err =>
            ⟨.returns "" (some (.errorf "failed to save token" err)),
              [.readRandom 32, .readRandom 24] ++ r3.2 ++ [.exchange code codeVerifier] ++ r4.2.1,
              r4.2.2⟩
          | none =>
            ⟨.returns accessToken none,
              [.readRandom 32, .readRandom 24] ++ r3.2 ++ [.exchange code codeVerifier] ++ r4.2.1,
              r4.2.2⟩

/-- A run that starts after the calls `pre` were made. -/
def Result.after (pre : List Event) (r : Result) : Result :=
  { r with trace := pre ++ r.trace }

/-- Function `Login` (lines 106-167); the login flow of lines 121-166 is `loginFlow`. -/
def Login (w : World) : Result :=
  let tokenString := w.tokenFlag
  if tokenString ≠ "" then
    ⟨.returns tokenString none, [], w.store⟩
  else
    let r := readToken w
    match r.1.2 with
    | some err =>
      if !osIsNotExist err then
        ⟨.returns "" (some (.errorf "failed to read token file" err)), r.2, w.store⟩
      else
        (loginFlow w).after r.2
    | none =>
      let tokenString := r.1.1
      let e := isTokenExpired w tokenString
      if e.1.2 = none ∧ e.1.1 = false then
        ⟨.returns tokenString none, r.2 ++ e.2, w.store⟩
      else
        (loginFlow w).after (r.2 ++ e.2)

/-! ## Definitions used in the statements -/

/-- The authorization URL of a run of the login flow (lines 145-150): the state
is made from the second read of the random source, the challenge from the
verifier made from the first. -/
def flowAuthURL (w : World) : AuthURL :=
  loginConfig.authCodeURL (hexEncodeToString ((w.rand.drop 32).take 24))
    [("code_challenge_method", "S256"),
     ("code_challenge", GenerateCodeChallenge w.sum256 (hexEncodeToString (w.rand.take 32))),
     ("audience", defaultAudience)]

/-- What a call made in a run is bound to: the random source is read for 32 or
24 bytes, the browser is opened on the authorization URL of the run, and the
exchange carries the verifier of the run, the last two only after both reads
of the random source have succeeded. -/
def Event.inRun (w : World) : Event → Prop
  | .readRandom count => count = 32 ∨ count = 24
  | .openURL authURL => 56 ≤ w.rand.length ∧ authURL = flowAuthURL w
  | .exchange _ codeVerifier =>
    56 ≤ w.rand.length ∧ codeVerifier = hexEncodeToString (w.rand.take 32)
  | _ => True

/-- Go `hex.DecodeString` on one character: the value of a hexadecimal digit. -/
def fromHexChar (c : Char) : Option Nat :=
  if '0' ≤ c ∧ c ≤ '9' then some (c.toNat - '0'.toNat)
  else if 'a' ≤ c ∧ c ≤ 'f' then some (c.toNat - 'a'.toNat + 10)
  else if 'A' ≤ c ∧ c ≤ 'F' then some (c.toNat - 'A'.toNat + 10)
  else none

/-- Go `hex.DecodeString` on the characters of a string: two digits make a byte. -/
def hexDecode : List Char → Option (List Byte)
  | [] => some []
  | [_] => none
  | p :: q :: rest =>
    match fromHexChar p, fromHexChar q, hexDecode rest with
    | some a, some b, some r => some (Fin.ofNat (a <<< 4 ||| b) :: r)
    | _, _, _ => none

/-- Go `hex.DecodeString`. -/
def hexDecodeString (s : String) : Option (List Byte) := hexDecode s.data

/-- The two digits that `hex.EncodeToString` writes for a byte. -/
def hexDigits (v : Byte) : List Char :=
  [hextable.getD (v.val >>> 4) '0', hextable.getD (v.val &&& 0x0f) '0']

/-- A stand-in for `jwt.ParseUnverified` in the examples: `"good"` carries the
expiry 100, `"frac"` the expiry 100.5, `"far"` the expiry 9223372000000000000,
`"noexp"` carries none, anything else does not parse. -/
def sampleParse (s : String) : Parsed :=
  if s = "good" then .mapClaims (some ⟨100, 0⟩)
  else if s = "frac" then .mapClaims (some ⟨201, -1⟩)
  else if s = "far" then .mapClaims (some ⟨9223372000000000000, 0⟩)
  else if s = "noexp" then .mapClaims none
  else .failed (.ext false)

/-- An example world: no token file, five nanoseconds after the epoch, a random
source of 56 bytes, a callback that delivers the code `abc123`, and a token
endpoint that answers it with the access token `xyz789`. The hash is a
stand-in that keeps the first 32 bytes. -/
def sampleWorld : World :=
  { tokenFlag := ""
    clientIdFlag := ""
    clientSecretFlag := ""
    expandErr := none
    store := ⟨none, none⟩
    readErr := none
    mkdirErr := none
    writeErr := none
    parseUnverified := sampleParse
    int64Unrepresentable := fun _ => 0
    now := 5
    nowInRange := by decide
    rand := (List.replicate 32 (7 : Byte)) ++ List.replicate 24 (9 : Byte)
    sum256 := fun data => data.take 32
    bindOk := true
    callbacks := [⟨[("code", "abc123"), ("state", "s")]⟩]
    tokenEndpoint := fun code _ => if code = "abc123" then .ok "xyz789" else .error (.ext false) }

/-- The example world with a token file of the given content. -/
def sampleStored (content : String) : World :=
  { sampleWorld with store := ⟨some 0o700, some (content, 0o600)⟩ }

/-- The example world with a token file of the given content, 100 seconds
after the epoch. -/
def sampleAtExpiry (content : String) : World :=
  { sampleStored content with now := 100000000000, nowInRange := by decide }

/-- The example world with a token file of the given content, 100.2 seconds
after the epoch. -/
def sampleSoonAfter (content : String) : World :=
  { sampleStored content with now := 100200000000, nowInRange := by decide }

/-- The example world with a token file of the given content, one nanosecond
over 100 seconds after the epoch. -/
def sampleLater (content : String) : World :=
  { sampleStored content with now := 100000000001, nowInRange := by decide }

/-- Spec side: base64url with padding (RFC 4648, section 5), three bytes to
four characters, a last group of one or two bytes filled up with `=`. -/
def base64URLPadded : List Byte → List Char
  | a :: b :: c :: rest =>
    let val := a.val <<< 16 ||| b.val <<< 8 ||| c.val
    b64 (val >>> 18) :: b64 (val >>> 12) :: b64 (val >>> 6) :: b64 val :: base64URLPadded rest
  | [a, b] =>
    let val := a.val <<< 16 ||| b.val <<< 8
    [b64 (val >>> 18), b64 (val >>> 12), b64 (val >>> 6), '=']
  | [a] =>
    let val := a.val <<< 16
    [b64 (val >>> 18), b64 (val >>> 12), '=', '=']
  | [] => []

/-- Spec side, in the words of the specification: the code challenge is
base64url-no-padding(SHA-256(verifier)). -/
def specCodeChallenge (sum256 : List Byte → List Byte) (verifier : String) : String :=
  String.mk ((base64URLPadded (sum256 (bytesOf verifier))).filter (fun c => c != '='))

/-- The example world where the issuer first reports a denial (a callback
without a code) and a callback with the code `abc123` follows. -/
def sampleDenied : World :=
  { sampleWorld with
    callbacks := [⟨[("error", "access_denied"), ("state", "s")]⟩, ⟨[("code", "abc123")]⟩] }

/-- Spec side: the characters have no white space at either end. -/
def edgesNotSpace (l : List Char) : Bool :=
  l.head?.all (fun c => !isSpace c) && l.getLast?.all (fun c => !isSpace c)

/-- Spec side: the string has no leading and no trailing white space. -/
def noSurroundingSpace (s : String) : Bool := edgesNotSpace s.data

/-- The world after a call of `writeToken`: the same world with the token
store as the call left it. -/
def World.afterWrite (w : World) (token : String) : World :=
  { w with store := (writeToken w token).2.2 }

/-! ## Attributes (`internal/utils/utils.go`, `internal/instance/instance.go`) -/

/-- A UUID: its 16 bytes. -/
structure UUID where
  bytes : List Byte
  deriving DecidableEq, Repr

/-- Go `uuid.Nil`. -/
def uuidNil : UUID := ⟨List.replicate 16 0⟩

/-- Go `strings.Split` on the characters of a string, for a separator of one
character: the segments between the separators, in order. -/
def splitChars (sep : Char) : List Char → List (List Char)
  | [] => [[]]
  | c :: cs =>
    if c = sep then [] :: splitChars sep cs
    else (c :: (splitChars sep cs).headD []) :: (splitChars sep cs).tail

/-- Go `strings.Split(s, sep)` for a separator of one character. -/
def stringsSplit (s : String) (sep : Char) : List String :=
  (splitChars sep s.data).map String.mk

/-- Go `strings.Index` on the characters of a string, for a separator of one
character: the place of its first occurrence. -/
def indexChar (sep : Char) : List Char → Option Nat
  | [] => none
  | c :: cs => if c = sep then some 0 else (indexChar sep cs).map (fun i => i + 1)

/-- Go `strings.Cut(s, sep)` for a separator of one character: the text before
the first separator, the text after it, and whether there is one. -/
def stringsCut (s : String) (sep : Char) : String × String × Bool :=
  match indexChar sep s.data with
  | some i => (String.mk (s.data.take i), String.mk (s.data.drop (i + 1)), true)
  | none => (s, "", false)

/-- Go `m[k] = v` on a `map[string]string`, kept as a list of its entries. -/
def mapSet (m : List (String × String)) (k v : String) : List (String × String) :=
  (k, v) :: m.filter (fun kv => kv.1 != k)

/-- Go `v, found := m[k]` on a `map[string]string`. -/
def mapGet (m : List (String × String)) (k : String) : Option String :=
  m.lookup k

/-- Function `ParseAttrs` (`utils.go`, lines 49-60). -/
def ParseAttrs (s : String) : List (String × String) :=
  (stringsSplit s ',').foldl
    (fun attrs fs =>
      match stringsCut fs '=' with
      | (k, v, true) => mapSet attrs k v
      | (_, _, false) => mapSet attrs fs "")
    []

/-- Function `parseFilesystemFlag` (`instance.go`, lines 159-171): the pair it
returns. `uuid.Parse` is a parameter. -/
def parseFilesystemFlag (uuidParse : String → Except GoError UUID) (s : String) :
    UUID × Option GoError :=
  let attrs := ParseAttrs s
  match mapGet attrs "id" with
  | some id =>
    match uuidParse id with
    | .error _ => (uuidNil, some (.new ("invalid filesystem id: " ++ id)))
    | .ok res => (res, none)
  | none => (uuidNil, some (.new ("missing 'id' attribute in filesystem: " ++ s)))

/-- Spec side: the key and the value of a segment: the text before its first
`=` and the text after it, or the whole segment and the empty string when it
has no `=`. -/
def attrOf (seg : String) : String × String :=
  if seg.data.contains '=' then
    (String.mk (seg.data.takeWhile (fun c => c != '=')),
      String.mk ((seg.data.dropWhile (fun c => c != '=')).drop 1))
  else (seg, "")

/-- Spec side: the last segment of `s`, split at every comma, that has the key. -/
def lastSegment (s : String) (key : String) : Option String :=
  (stringsSplit s ',').reverse.find? (fun seg => (attrOf seg).1 == key)

/-- A stand-in for `uuid.Parse` in the examples: it knows one UUID. -/
def sampleUUIDParse (s : String) : Except GoError UUID :=
  if s = "00000000-0000-0000-0000-000000000001" then
    .ok ⟨List.replicate 15 0 ++ [1]⟩
  else .error (.ext false)

/-! ## Reading the token store -/

theorem readToken_present (w : World) (s : String) (perm : Nat)
    (hexp : w.expandErr = none) (hfile : w.store.file = some (s, perm))
    (hread : w.readErr = none) :
    readToken w = ((trimSpace s, none), [.expandHome, .readFile]) := by
  simp [readToken, osReadFile, hexp, hfile, hread]

theorem readToken_absent (w : World)
    (hexp : w.expandErr = none) (hread : w.readErr = none) (hfile : w.store.file = none) :
    readToken w = (("", some (.ext true)), [.expandHome, .readFile]) := by
  simp [readToken, osReadFile, hexp, hread, hfile]

theorem readToken_unreadable (w : World) (e : GoError)
    (hexp : w.expandErr = none) (hread : w.readErr = some e) :
    readToken w = (("", some e), [.expandHome, .readFile]) := by
  simp [readToken, osReadFile, hexp, hread]

theorem readToken_noHome (w : World) (e : GoError) (hexp : w.expandErr = some e) :
    readToken w =
      (("", some (.errorf "failed to expand token file path" e)), [.expandHome]) := by
  simp [readToken, hexp]

/-! ## Time -/

/-- The result of `int64(x)` is an `int64`. -/
theorem int64OfFloat_range (u : Float64 → Int) (x : Float64) :
    -9223372036854775808 ≤ int64OfFloat u x ∧ int64OfFloat u x < 9223372036854775808 := by
  unfold int64OfFloat
  simp only
  generalize (if 0 ≤ x.exp2 then x.mant * 2 ^ x.exp2.toNat
    else x.mant.tdiv (2 ^ (-x.exp2).toNat)) = t
  by_cases h : -(2 : Int) ^ 63 ≤ t ∧ t < (2 : Int) ^ 63
  · rw [if_pos h]
    norm_num at h
    exact h
  · rw [if_neg h]
    unfold wrapInt64
    omega

/-- Function `int64(x)` gives `x` with its fraction discarded when an `int64`
holds that. -/
theorem int64OfFloat_whole (u : Float64 → Int) (x : Float64) (t : Int)
    (h : IsWholeSecondsOf x t)
    (hlo : -9223372036854775808 ≤ t) (hhi : t < 9223372036854775808) :
    int64OfFloat u x = t := by
  have hval : (if 0 ≤ x.exp2 then x.mant * 2 ^ x.exp2.toNat
      else x.mant.tdiv (2 ^ (-x.exp2).toNat)) = t := by
    unfold IsWholeSecondsOf at h
    by_cases h0 : 0 ≤ x.exp2
    · rw [if_pos h0] at h ⊢
      exact h.symm
    · rw [if_neg h0] at h ⊢
      have hd : (0 : Int) < 2 ^ (-x.exp2).toNat := by positivity
      by_cases hm : 0 ≤ x.mant
      · rw [if_pos hm] at h
        rw [Int.tdiv_eq_ediv hm (le_of_lt hd)]
        apply le_antisymm
        · exact Int.le_of_lt_add_one ((Int.ediv_lt_iff_lt_mul hd).mpr h.2)
        · exact (Int.le_ediv_iff_mul_le hd).mpr h.1
      · rw [if_neg hm] at h
        have hneg : 0 ≤ -x.mant := by omega
        have hflip : x.mant.tdiv (2 ^ (-x.exp2).toNat) =
            -((-x.mant) / 2 ^ (-x.exp2).toNat) := by
          rw [← Int.tdiv_eq_ediv hneg (le_of_lt hd), Int.neg_tdiv, neg_neg]
        rw [hflip]
        have h1 : -x.mant < (-t + 1) * 2 ^ (-x.exp2).toNat := by
          have := h.1
          linarith
        have h2 : -t * 2 ^ (-x.exp2).toNat ≤ -x.mant := by
          have := h.2
          linarith
        have hq : (-x.mant) / 2 ^ (-x.exp2).toNat = -t := by
          apply le_antisymm
          · exact Int.le_of_lt_add_one ((Int.ediv_lt_iff_lt_mul hd).mpr h1)
          · exact (Int.le_ediv_iff_mul_le hd).mpr h2
        rw [hq, neg_neg]
  unfold int64OfFloat
  simp only [hval]
  rw [if_pos]
  constructor
  · norm_num; exact hlo
  · norm_num; exact hhi

/-- With a clock that reads `time.Time` instants and seconds that `time.Unix`
takes without wrapping, `After` compares the instants. -/
theorem timeAfter_iff (w : World) (e : Int)
    (hlo : -9223372036854775808 ≤ e) (hrep : e + 62135596800 < 9223372036854775808) :
    timeAfter (timeNow w.now) (timeUnix e) = true ↔ unixInstant e < w.now := by
  have hclock := w.nowInRange
  unfold timeAfter timeNow timeUnix unixInstant wrapInt64 unixToInternal
  simp only [decide_eq_true_eq]
  omega

/-- Seconds that lie before the reading of the clock do not make `time.Unix`
wrap. -/
theorem timeAfter_of_past (w : World) (e : Int)
    (hlo : -9223372036854775808 ≤ e) (hpast : unixInstant e < w.now) :
    timeAfter (timeNow w.now) (timeUnix e) = true := by
  have hclock := w.nowInRange
  have hrep : e + 62135596800 < 9223372036854775808 := by
    unfold unixInstant at hpast
    omega
  exact (timeAfter_iff w e hlo hrep).mpr hpast

/-! ## The stored token -/

/-- With no `--token` and a store that reads as `s`, `Login` returns the
trimmed content when it decodes and is not expired. -/
theorem login_of_valid (w : World) (s : String) (perm : Nat) (exp : Float64)
    (hflag : w.tokenFlag = "") (hexp : w.expandErr = none)
    (hfile : w.store.file = some (s, perm)) (hread : w.readErr = none)
    (hparse : w.parseUnverified (trimSpace s) = .mapClaims (some exp))
    (hrep : int64OfFloat w.int64Unrepresentable exp + 62135596800 < 9223372036854775808)
    (hvalid : w.now ≤ unixInstant (int64OfFloat w.int64Unrepresentable exp)) :
    Login w = ⟨.returns (trimSpace s) none,
      [.expandHome, .readFile, .parseToken (trimSpace s), .timeNow], w.store⟩ := by
  have hnot : timeAfter (timeNow w.now)
      (timeUnix (int64OfFloat w.int64Unrepresentable exp)) = false := by
    have hiff := timeAfter_iff w _ (int64OfFloat_range _ exp).1 hrep
    cases hafter : timeAfter (timeNow w.now)
        (timeUnix (int64OfFloat w.int64Unrepresentable exp)) with
    | false => rfl
    | true => exact absurd (hiff.mp hafter) (not_lt.mpr hvalid)
  simp [Login, hflag, readToken_present w s perm hexp hfile hread, isTokenExpired, hparse,
    hnot]

/-- With no `--token` and a store that reads as `s`, `Login` goes on to the
login flow when the content decodes and is expired. -/
theorem login_of_expired (w : World) (s : String) (perm : Nat) (exp : Float64)
    (hflag : w.tokenFlag = "") (hexp : w.expandErr = none)
    (hfile : w.store.file = some (s, perm)) (hread : w.readErr = none)
    (hparse : w.parseUnverified (trimSpace s) = .mapClaims (some exp))
    (hpast : unixInstant (int64OfFloat w.int64Unrepresentable exp) < w.now) :
    Login w = (loginFlow w).after
      [.expandHome, .readFile, .parseToken (trimSpace s), .timeNow] := by
  have hafter := timeAfter_of_past w _ (int64OfFloat_range _ exp).1 hpast
  simp [Login, hflag, readToken_present w s perm hexp hfile hread, isTokenExpired, hparse,
    hafter]

/-- With no `--token` and a store that reads as `s`, `Login` goes on to the
login flow when the content does not decode to claims with an expiry. -/
theorem login_of_undecodable (w : World) (s : String) (perm : Nat)
    (hflag : w.tokenFlag = "") (hexp : w.expandErr = none)
    (hfile : w.store.file = some (s, perm)) (hread : w.readErr = none)
    (hbad : ∀ exp, w.parseUnverified (trimSpace s) ≠ .mapClaims (some exp)) :
    Login w = (loginFlow w).after [.expandHome, .readFile, .parseToken (trimSpace s)] := by
  have hr := readToken_present w s perm hexp hfile hread
  cases hp : w.parseUnverified (trimSpace s) with
  | failed err => simp [Login, hflag, hr, isTokenExpired, hp]
  | otherClaims => simp [Login, hflag, hr, isTokenExpired, hp]
  | mapClaims exp =>
    cases exp with
    | none => simp [Login, hflag, hr, isTokenExpired, hp]
    | some x => exact absurd hp (hbad x)

/-! ## The login flow -/

theorem randomBytesInHex_ok (count : Nat) (src : List Byte) (h : count ≤ src.length) :
    randomBytesInHex count src =
      ((hexEncodeToString (src.take count), none), src.drop count) := by
  simp [randomBytesInHex, readFull, h]

theorem randomBytesInHex_short (count : Nat) (src : List Byte) (h : ¬ count ≤ src.length) :
    randomBytesInHex count src =
      (("", some (.errorf ("Could not generate " ++ toString count ++ " random bytes")
        (.ext false))), []) := by
  simp [randomBytesInHex, readFull, h]

theorem serveCallbacks_inRun (w : World) (reqs : List Request) :
    ∀ e ∈ (serveCallbacks reqs).2, e.inRun w := by
  induction reqs with
  | nil => simp [serveCallbacks]
  | cons r rest ih =>
    intro e he
    unfold serveCallbacks at he
    by_cases hc : valuesGet r.query "code" = ""
    · simp only [hc, if_true, List.mem_cons] at he
      rcases he with rfl | he
      · trivial
      · exact ih e he
    · simp only [hc, if_false, List.mem_singleton] at he
      subst he
      trivial

theorem waitForAuthorizationCode_inRun (w : World) (h : 56 ≤ w.rand.length) :
    ∀ e ∈ (waitForAuthorizationCode w (flowAuthURL w)).2, e.inRun w := by
  have hserved : ∀ e ∈ (if w.bindOk then serveCallbacks w.callbacks else (none, [])).2,
      e.inRun w := by
    intro e he
    by_cases hb : w.bindOk = true
    · rw [if_pos hb] at he
      exact serveCallbacks_inRun w _ e he
    · rw [if_neg hb] at he
      simp at he
  have hopen : (Event.openURL (flowAuthURL w)).inRun w := ⟨h, rfl⟩
  intro e he
  unfold waitForAuthorizationCode at he
  generalize (if w.bindOk = true then serveCallbacks w.callbacks else (none, [])) = served
    at he hserved
  rcases served with ⟨_ | code, ev⟩
  · simp only [List.cons_append, List.nil_append, List.mem_cons] at he
    rcases he with rfl | rfl | he
    · trivial
    · exact hopen
    · exact hserved e he
  · simp only [List.cons_append, List.nil_append, List.mem_cons, List.mem_append,
      List.mem_singleton, List.not_mem_nil, or_false] at he
    rcases he with rfl | rfl | he | rfl
    · trivial
    · exact hopen
    · exact hserved e he
    · trivial

theorem waitForAuthorizationCode_opens (w : World) (authURL : AuthURL) :
    Event.listenAndServe ∈ (waitForAuthorizationCode w authURL).2 ∧
      Event.openURL authURL ∈ (waitForAuthorizationCode w authURL).2 := by
  unfold waitForAuthorizationCode
  generalize (if w.bindOk = true then serveCallbacks w.callbacks else (none, [])) = served
  rcases served with ⟨_ | code, ev⟩ <;> simp

theorem writeToken_inRun (w : World) (token : String) :
    ∀ e ∈ (writeToken w token).2.1, e.inRun w := by
  intro e he
  unfold writeToken at he
  split at he
  · simp at he; subst he; trivial
  · split at he
    · simp at he; rcases he with rfl | rfl <;> trivial
    · split at he <;>
      · simp at he; rcases he with rfl | rfl | rfl <;> trivial

/-- The code challenge that `Login` computes with a running hash (lines
126-128) is the one `GenerateCodeChallenge` computes. -/
theorem inline_challenge (sum256 : List Byte → List Byte) (v : String) :
    rawURLEncodeToString ((sha256New.write (bytesOf v)).sum sum256 []) =
      GenerateCodeChallenge sum256 v := by
  simp [GenerateCodeChallenge, sha256New, Digest.write, Digest.sum]

/-- Every call made by the login flow is as `Event.inRun` says. -/
theorem loginFlow_inRun (w : World) : ∀ e ∈ (loginFlow w).trace, e.inRun w := by
  intro e he
  have hr32 : (Event.readRandom 32).inRun w := Or.inl rfl
  have hr24 : (Event.readRandom 24).inRun w := Or.inr rfl
  unfold loginFlow at he
  by_cases h32 : 32 ≤ w.rand.length
  · rw [randomBytesInHex_ok 32 w.rand h32] at he
    by_cases h24 : 24 ≤ (w.rand.drop 32).length
    · have h56 : 56 ≤ w.rand.length := by
        rw [List.length_drop] at h24; omega
      simp only [randomBytesInHex_ok 24 _ h24, inline_challenge] at he
      have hw := waitForAuthorizationCode_inRun w h56
      have hu : loginConfig.authCodeURL (hexEncodeToString ((w.rand.drop 32).take 24))
          [("code_challenge_method", "S256"),
           ("code_challenge",
              GenerateCodeChallenge w.sum256 (hexEncodeToString (w.rand.take 32))),
           ("audience", defaultAudience)] = flowAuthURL w := rfl
      simp only [hu] at he
      generalize waitForAuthorizationCode w (flowAuthURL w) = r3 at he hw
      rcases r3 with ⟨_ | ⟨code, _ | err⟩, ev⟩
      · simp only [List.cons_append, List.nil_append, List.mem_cons] at he
        rcases he with rfl | rfl | he
        · exact hr32
        · exact hr24
        · exact hw e he
      · simp only at he
        have hex : (Event.exchange code (hexEncodeToString (w.rand.take 32))).inRun w :=
          ⟨h56, rfl⟩
        cases hx : w.tokenEndpoint code (hexEncodeToString (w.rand.take 32)) with
        | error err =>
          simp only [hx, List.cons_append, List.nil_append, List.mem_cons, List.mem_append,
            List.mem_singleton, List.not_mem_nil, or_false] at he
          rcases he with rfl | rfl | he | rfl
          · exact hr32
          · exact hr24
          · exact hw e he
          · exact hex
        | ok accessToken =>
          have he2 : e = .readRandom 32 ∨ e = .readRandom 24 ∨ e ∈ ev ∨
              e = .exchange code (hexEncodeToString (w.rand.take 32)) ∨
              e ∈ (writeToken w accessToken).2.1 := by
            simp only [hx] at he
            split at he <;>
              simpa only [List.cons_append, List.nil_append, List.mem_cons, List.mem_append,
                List.mem_singleton, List.not_mem_nil, or_false, or_assoc] using he
          rcases he2 with rfl | rfl | he | rfl | he
          · exact hr32
          · exact hr24
          · exact hw e he
          · exact hex
          · exact writeToken_inRun w accessToken e he
      · simp only [List.cons_append, List.nil_append, List.mem_cons] at he
        rcases he with rfl | rfl | he
        · exact hr32
        · exact hr24
        · exact hw e he
    · simp only [randomBytesInHex_short 24 _ h24, List.mem_cons, List.not_mem_nil,
        or_false] at he
      rcases he with rfl | rfl
      · exact hr32
      · exact hr24
  · simp only [randomBytesInHex_short 32 _ h32, List.mem_singleton] at he
    subst he
    exact hr32

/-! ## Hexadecimal -/

theorem hexEncodeToString_data (src : List Byte) :
    (hexEncodeToString src).data = src.flatMap hexDigits := rfl

set_option maxRecDepth 100000 in
theorem hexDigits_spec : ∀ v : Byte,
    (∀ c ∈ hexDigits v, c ∈ hextable) ∧
    fromHexChar (hextable.getD (v.val >>> 4) '0') = some (v.val >>> 4) ∧
    fromHexChar (hextable.getD (v.val &&& 0x0f) '0') = some (v.val &&& 0x0f) ∧
    (Fin.ofNat ((v.val >>> 4) <<< 4 ||| (v.val &&& 0x0f)) : Byte) = v := by
  decide

theorem hexEncodeToString_length (src : List Byte) :
    (hexEncodeToString src).length = 2 * src.length := by
  show (hexEncodeToString src).data.length = 2 * src.length
  rw [hexEncodeToString_data]
  induction src with
  | nil => rfl
  | cons v rest ih =>
    simp only [List.flatMap_cons, List.length_append, ih, List.length_cons]
    simp [hexDigits]
    omega

theorem hexEncodeToString_chars (src : List Byte) :
    ∀ c ∈ (hexEncodeToString src).data, c ∈ hextable := by
  intro c hc
  rw [hexEncodeToString_data, List.mem_flatMap] at hc
  obtain ⟨v, _, hv⟩ := hc
  exact (hexDigits_spec v).1 c hv

theorem hexDecode_encode (src : List Byte) :
    hexDecodeString (hexEncodeToString src) = some src := by
  show hexDecode (hexEncodeToString src).data = some src
  rw [hexEncodeToString_data]
  induction src with
  | nil => rfl
  | cons v rest ih =>
    obtain ⟨_, h1, h2, h3⟩ := hexDigits_spec v
    have hstep : (v :: rest).flatMap hexDigits =
        hextable.getD (v.val >>> 4) '0' :: hextable.getD (v.val &&& 0x0f) '0' ::
          rest.flatMap hexDigits := rfl
    rw [hstep, hexDecode, h1, h2, ih]
    simp only [h3]

/-! ## Calls made by `Login` -/

theorem readToken_inRun (w : World) : ∀ e ∈ (readToken w).2, e.inRun w := by
  intro e he
  unfold readToken at he
  split at he
  · simp at he; subst he; trivial
  · split at he <;>
    · simp at he; rcases he with rfl | rfl <;> trivial

theorem isTokenExpired_inRun (w : World) (tokenString : String) :
    ∀ e ∈ (isTokenExpired w tokenString).2, e.inRun w := by
  intro e he
  unfold isTokenExpired at he
  split at he
  · simp at he; subst he; trivial
  · simp only at he
    split at he <;>
    · simp at he; rcases he with rfl | rfl <;> trivial
  · simp at he; subst he; trivial
  · simp at he; subst he; trivial

/-- Every call made by `Login` is as `Event.inRun` says. -/
theorem login_inRun (w : World) : ∀ e ∈ (Login w).trace, e.inRun w := by
  intro e he
  have pre : e ∈ (readToken w).2 ∨ e ∈ (isTokenExpired w (readToken w).1.1).2 →
      e.inRun w := by
    rintro (h | h)
    · exact readToken_inRun w e h
    · exact isTokenExpired_inRun w _ e h
  unfold Login at he
  simp only at he
  split at he
  · simp at he
  · split at he
    · split at he
      · exact pre (Or.inl he)
      · simp only [Result.after, List.mem_append] at he
        rcases he with he | he
        · exact pre (Or.inl he)
        · exact loginFlow_inRun w e he
    · split at he
      · simp only [List.mem_append] at he
        exact pre he
      · simp only [Result.after, List.mem_append] at he
        rcases he with he | he
        · exact pre he
        · exact loginFlow_inRun w e he

/-- The browser is opened only by the login flow, with the authorization URL
of the run. -/
theorem login_openURL (w : World) (u : AuthURL) (h : Event.openURL u ∈ (Login w).trace) :
    56 ≤ w.rand.length ∧ u = flowAuthURL w :=
  login_inRun w _ h

/-- The token exchange is called only by the login flow, with the verifier
of the run. -/
theorem login_exchange (w : World) (code ver : String)
    (h : Event.exchange code ver ∈ (Login w).trace) :
    56 ≤ w.rand.length ∧ ver = hexEncodeToString (w.rand.take 32) :=
  login_inRun w _ h

/-- The login flow begins by reading 32 bytes from the random source. -/
theorem loginFlow_reads (w : World) : Event.readRandom 32 ∈ (loginFlow w).trace := by
  unfold loginFlow
  by_cases h32 : 32 ≤ w.rand.length
  · simp only [randomBytesInHex_ok 32 w.rand h32]
    by_cases h24 : 24 ≤ (w.rand.drop 32).length
    · simp only [randomBytesInHex_ok 24 _ h24]
      split
      · simp
      · simp
      · split
        · simp
        · split <;> simp
    · simp [randomBytesInHex_short 24 _ h24]
  · simp [randomBytesInHex_short 32 _ h32]

/-- A token that the login flow returns without error is the access token the
token endpoint gave for the code received and the verifier of the run, after
both reads of the random source, the wait for the callback and the exchange. -/
theorem loginFlow_token (w : World) (token : String)
    (h : (loginFlow w).outcome = .returns token none) :
    56 ≤ w.rand.length ∧
    ∃ code, (waitForAuthorizationCode w (flowAuthURL w)).1 = some (code, none) ∧
      w.tokenEndpoint code (hexEncodeToString (w.rand.take 32)) = .ok token ∧
      (writeToken w token).1 = none ∧
      (loginFlow w).trace = [.readRandom 32, .readRandom 24] ++
        (waitForAuthorizationCode w (flowAuthURL w)).2 ++
        [.exchange code (hexEncodeToString (w.rand.take 32))] ++ (writeToken w token).2.1 ∧
      (loginFlow w).store = (writeToken w token).2.2 := by
  unfold loginFlow at h ⊢
  by_cases h32 : 32 ≤ w.rand.length
  · by_cases h24 : 24 ≤ (w.rand.drop 32).length
    · have h56 : 56 ≤ w.rand.length := by
        rw [List.length_drop] at h24; omega
      have hu : loginConfig.authCodeURL (hexEncodeToString ((w.rand.drop 32).take 24))
          [("code_challenge_method", "S256"),
           ("code_challenge",
              GenerateCodeChallenge w.sum256 (hexEncodeToString (w.rand.take 32))),
           ("audience", defaultAudience)] = flowAuthURL w := rfl
      simp only [randomBytesInHex_ok 32 w.rand h32, randomBytesInHex_ok 24 _ h24,
        inline_challenge, hu] at h ⊢
      refine ⟨h56, ?_⟩
      generalize waitForAuthorizationCode w (flowAuthURL w) = r3 at h ⊢
      rcases r3 with ⟨_ | ⟨code, _ | err⟩, ev⟩
      · simp at h
      · simp only at h ⊢
        cases hx : w.tokenEndpoint code (hexEncodeToString (w.rand.take 32)) with
        | error err => simp [hx] at h
        | ok accessToken =>
          simp only [hx] at h ⊢
          cases hwr : (writeToken w accessToken).1 with
          | some err => simp [hwr] at h
          | none =>
            simp only [hwr] at h ⊢
            have htok : accessToken = token := by
              injection h with h1 _
            subst htok
            exact ⟨code, rfl, hx, hwr, rfl, rfl⟩
      · simp at h
    · simp [randomBytesInHex_ok 32 w.rand h32, randomBytesInHex_short 24 _ h24] at h
  · simp [randomBytesInHex_short 32 _ h32] at h

/-- The authorization URL of a run, written out. -/
theorem flowAuthURL_eq (w : World) (h : 56 ≤ w.rand.length) :
    flowAuthURL w =
      ⟨"https://fluidstack.us.auth0.com/authorize",
        [("response_type", "code"),
         ("client_id", "diPhN35HH6jVXs615vsafkdIQM4Y5rF8"),
         ("redirect_uri", "http://localhost:5173"),
         ("scope", "openid profile email offline_access"),
         ("state", hexEncodeToString ((w.rand.drop 32).take 24)),
         ("code_challenge_method", "S256"),
         ("code_challenge",
            GenerateCodeChallenge w.sum256 (hexEncodeToString (w.rand.take 32))),
         ("audience", "https://api.fluidstack.io")]⟩ := by
  have hlen : (hexEncodeToString ((w.rand.drop 32).take 24)).length = 48 := by
    rw [hexEncodeToString_length, List.length_take, List.length_drop]
    omega
  have hne : hexEncodeToString ((w.rand.drop 32).take 24) ≠ "" := by
    intro h0
    rw [h0] at hlen
    exact absurd hlen (by decide)
  simp [flowAuthURL, Config.authCodeURL, loginConfig, hne, valuesSet, defaultAuthURL,
    defaultClientID, defaultRedirect, defaultAudience]
  decide

/-! ## Base64 -/

theorem b64_mem (val : Nat) : b64 val ∈ encodeURL := by
  have hall : ∀ i, i < 64 → encodeURL.getD i 'A' ∈ encodeURL := by decide
  have hlt : val &&& 0x3F < 64 := Nat.lt_succ_of_le Nat.and_le_right
  exact hall _ hlt

theorem rawURLEncode_chars : ∀ (src : List Byte), ∀ c ∈ rawURLEncode src, c ∈ encodeURL
  | [] => by simp [rawURLEncode]
  | [a] => by
    intro c hc
    simp only [rawURLEncode, List.mem_cons, List.not_mem_nil, or_false] at hc
    rcases hc with hc | hc <;> (rw [hc]; exact b64_mem _)
  | [a, b] => by
    intro c hc
    simp only [rawURLEncode, List.mem_cons, List.not_mem_nil, or_false] at hc
    rcases hc with hc | hc | hc <;> (rw [hc]; exact b64_mem _)
  | a :: b :: c :: rest => by
    intro x hx
    simp only [rawURLEncode, List.mem_cons] at hx
    rcases hx with hx | hx | hx | hx | hx
    · rw [hx]; exact b64_mem _
    · rw [hx]; exact b64_mem _
    · rw [hx]; exact b64_mem _
    · rw [hx]; exact b64_mem _
    · exact rawURLEncode_chars rest x hx

theorem rawURLEncode_length : ∀ (src : List Byte),
    (rawURLEncode src).length = (4 * src.length + 2) / 3
  | [] => by simp [rawURLEncode]
  | [a] => by simp [rawURLEncode]
  | [a, b] => by simp [rawURLEncode]
  | a :: b :: c :: rest => by
    simp only [rawURLEncode, List.length_cons, rawURLEncode_length rest]
    omega

/-! ## The authorization URL and the random source -/

theorem b64_ne_pad (val : Nat) : (b64 val != '=') = true := by
  have hmem := b64_mem val
  have hall : ∀ c ∈ encodeURL, (c != '=') = true := by decide
  exact hall _ hmem

theorem rawURLEncode_eq_strip : ∀ (src : List Byte),
    rawURLEncode src = (base64URLPadded src).filter (fun c => c != '=')
  | [] => rfl
  | [a] => by simp [rawURLEncode, base64URLPadded, List.filter, b64_ne_pad]
  | [a, b] => by simp [rawURLEncode, base64URLPadded, List.filter, b64_ne_pad]
  | a :: b :: c :: rest => by
    simp only [rawURLEncode, base64URLPadded, List.filter, b64_ne_pad]
    rw [rawURLEncode_eq_strip rest]

theorem flowAuthURL_challenge (w : World) (h : 56 ≤ w.rand.length) :
    valuesGet (flowAuthURL w).values "code_challenge" =
      GenerateCodeChallenge w.sum256 (hexEncodeToString (w.rand.take 32)) := by
  rw [flowAuthURL_eq w h]
  simp [valuesGet, List.lookup]

theorem flowAuthURL_state (w : World) (h : 56 ≤ w.rand.length) :
    valuesGet (flowAuthURL w).values "state" =
      hexEncodeToString ((w.rand.drop 32).take 24) := by
  rw [flowAuthURL_eq w h]
  simp [valuesGet, List.lookup]

theorem login_readRandom (w : World) (n : Nat) (h : Event.readRandom n ∈ (Login w).trace) :
    n = 32 ∨ n = 24 :=
  login_inRun w _ h

/-! ## Claims -/

/-- C1. Explicit-token pass-through: for every non-empty value of the `--token`
flag and every world, `Login` returns exactly that value with no error, makes no
call at all to the outside (no read or write of the token store, no decoding, no
clock, no randomness, no listener, no browser, no exchange) and leaves the
token store as it was. -/
theorem login_explicit_token_passthrough (w : World) (h : w.tokenFlag ≠ "") :
    Login w = ⟨.returns w.tokenFlag none, [], w.store⟩ := by
  simp [Login, h]

theorem login_explicit_token_passthrough_witness :
    Login { sampleStored "good" with tokenFlag := "not a jwt" } =
      ⟨.returns "not a jwt" none, [], ⟨some 0o700, some ("good", 0o600)⟩⟩ :=
  login_explicit_token_passthrough { sampleStored "good" with tokenFlag := "not a jwt" }
    (by decide)

/-- C2, as stated, fails. A stored token whose expiry claim 100.5 lies in the
future of a clock at 100.2 seconds is not returned: `int64(exp)` is 100, so it
counts as expired and `Login` runs the login flow. A stored token whose expiry
claim 9223372000000000000 lies in the far future is not returned either:
`time.Unix` wraps and `Login` runs the login flow. -/
theorem cached_future_token_not_reused :
    (sampleSoonAfter "frac").parseUnverified "frac" = .mapClaims (some ⟨201, -1⟩) ∧
    (sampleSoonAfter "frac").now * 2 < 201 * 1000000000 ∧
    (Login (sampleSoonAfter "frac")).outcome = .returns "xyz789" none ∧
    Event.listenAndServe ∈ (Login (sampleSoonAfter "frac")).trace ∧
    (sampleStored "far").parseUnverified "far" =
      .mapClaims (some ⟨9223372000000000000, 0⟩) ∧
    (sampleStored "far").now < unixInstant 9223372000000000000 ∧
    (Login (sampleStored "far")).outcome = .returns "xyz789" none ∧
    Event.listenAndServe ∈ (Login (sampleStored "far")).trace := by
  decide

/-- C2, amended. Cached valid token is reused: with an empty `--token` flag and
a readable token store whose content `s` is a token (no surrounding white
space) that decodes to claims with an expiry `exp` whose whole seconds `t`
(`exp` with its fraction discarded) are seconds that `time.Unix` takes without
wrapping and lie in the future, `Login` returns `s` itself with no error; its
only calls are the read of the store, the decoding and the clock, so the login
flow is not run, and the token store is unchanged. -/
theorem login_cached_valid_token_reused (w : World) (s : String) (perm : Nat) (exp : Float64)
    (t : Int)
    (hflag : w.tokenFlag = "") (hexp : w.expandErr = none)
    (hfile : w.store.file = some (s, perm)) (hread : w.readErr = none)
    (htoken : trimSpace s = s)
    (hparse : w.parseUnverified s = .mapClaims (some exp))
    (hwhole : IsWholeSecondsOf exp t)
    (hlo : -9223372036854775808 ≤ t) (hrep : t + 62135596800 < 9223372036854775808)
    (hfuture : w.now < unixInstant t) :
    Login w =
      ⟨.returns s none, [.expandHome, .readFile, .parseToken s, .timeNow], w.store⟩ := by
  have hconv := int64OfFloat_whole w.int64Unrepresentable exp t hwhole hlo (by omega)
  have h := login_of_valid w s perm exp hflag hexp hfile hread (by rw [htoken]; exact hparse)
    (by rw [hconv]; exact hrep) (by rw [hconv]; exact le_of_lt hfuture)
  rw [htoken] at h
  exact h

theorem login_cached_valid_token_reused_witness :
    Login (sampleStored "frac") =
      ⟨.returns "frac" none, [.expandHome, .readFile, .parseToken "frac", .timeNow],
        ⟨some 0o700, some ("frac", 0o600)⟩⟩ :=
  login_cached_valid_token_reused (sampleStored "frac") "frac" 0o600 ⟨201, -1⟩ 100
    rfl rfl rfl rfl (by decide) (by decide) (by decide) (by decide) (by decide) (by decide)

/-- C3. Expired cached token is never returned: with an empty `--token` flag and
a readable token store whose content decodes to claims with an expiry strictly
in the past, `Login` does what the login flow does after the read, the decoding
and the clock: it draws the verifier from the random source, and a token it
returns without error is the access token that the token endpoint gave in the
exchange of the code received by the callback with the verifier of the run. -/
theorem login_cached_expired_token_relogin (w : World) (s : String) (perm : Nat)
    (exp : Float64)
    (hflag : w.tokenFlag = "") (hexp : w.expandErr = none)
    (hfile : w.store.file = some (s, perm)) (hread : w.readErr = none)
    (hparse : w.parseUnverified (trimSpace s) = .mapClaims (some exp))
    (hpast : unixInstant (int64OfFloat w.int64Unrepresentable exp) < w.now) :
    Login w = (loginFlow w).after
      [.expandHome, .readFile, .parseToken (trimSpace s), .timeNow] ∧
    Event.readRandom 32 ∈ (Login w).trace ∧
    ∀ token, (Login w).outcome = .returns token none →
      ∃ code, (waitForAuthorizationCode w (flowAuthURL w)).1 = some (code, none) ∧
        w.tokenEndpoint code (hexEncodeToString (w.rand.take 32)) = .ok token ∧
        Event.readRandom 24 ∈ (Login w).trace ∧
        Event.openURL (flowAuthURL w) ∈ (Login w).trace ∧
        Event.exchange code (hexEncodeToString (w.rand.take 32)) ∈ (Login w).trace := by
  have hlogin := login_of_expired w s perm exp hflag hexp hfile hread hparse hpast
  refine ⟨hlogin, ?_, ?_⟩
  · rw [hlogin]
    simp only [Result.after, List.mem_append]
    exact Or.inr (loginFlow_reads w)
  · intro token htoken
    rw [hlogin] at htoken ⊢
    obtain ⟨_, code, hwait, hx, _, htrace, _⟩ := loginFlow_token w token htoken
    refine ⟨code, hwait, hx, ?_, ?_, ?_⟩
    · simp [Result.after, htrace]
    · simp [Result.after, htrace, (waitForAuthorizationCode_opens w (flowAuthURL w)).2]
    · simp [Result.after, htrace]

theorem login_cached_expired_token_relogin_witness :
    Login (sampleLater "good") =
        (loginFlow (sampleLater "good")).after
          [.expandHome, .readFile, .parseToken (trimSpace "good"), .timeNow] ∧
    Event.readRandom 32 ∈ (Login (sampleLater "good")).trace ∧
    ∃ code,
      (waitForAuthorizationCode (sampleLater "good")
        (flowAuthURL (sampleLater "good"))).1 = some (code, none) ∧
      sampleWorld.tokenEndpoint code (hexEncodeToString (sampleWorld.rand.take 32)) =
        .ok "xyz789" ∧
      Event.readRandom 24 ∈ (Login (sampleLater "good")).trace ∧
      Event.openURL (flowAuthURL (sampleLater "good")) ∈
        (Login (sampleLater "good")).trace ∧
      Event.exchange code (hexEncodeToString (sampleWorld.rand.take 32)) ∈
        (Login (sampleLater "good")).trace :=
  have h := login_cached_expired_token_relogin
    (sampleLater "good") "good" 0o600 ⟨100, 0⟩
    rfl rfl rfl rfl (by decide) (by decide)
  ⟨h.1, h.2.1, h.2.2 "xyz789" (by decide)⟩

/-- C4, as stated, fails. The token file holds `garbage`, which does not
parse; `Login` returns no error at all: it runs the login flow (listener,
browser, exchange), returns the access token of the exchange and overwrites
the token file with it. -/
theorem login_malformed_token_not_an_error :
    (sampleStored "garbage").tokenFlag = "" ∧
    (sampleStored "garbage").parseUnverified (trimSpace "garbage") = .failed (.ext false) ∧
    (Login (sampleStored "garbage")).outcome = .returns "xyz789" none ∧
    Event.listenAndServe ∈ (Login (sampleStored "garbage")).trace ∧
    Event.openURL (flowAuthURL (sampleStored "garbage")) ∈
      (Login (sampleStored "garbage")).trace ∧
    Event.exchange "abc123" (hexEncodeToString ((sampleStored "garbage").rand.take 32)) ∈
      (Login (sampleStored "garbage")).trace ∧
    (Login (sampleStored "garbage")).store.file = some ("xyz789", 0o600) := by
  decide

/-- C4, amended. Malformed cached token leads to a new login: with an empty
`--token` flag and a readable token store whose content does not decode to
claims with an expiry (it does not parse, or its claims have no usable expiry),
`Login` drops the decoding error and does exactly what the login flow does after
the read and the decoding attempt. -/
theorem login_malformed_token_relogin (w : World) (s : String) (perm : Nat)
    (hflag : w.tokenFlag = "") (hexp : w.expandErr = none)
    (hfile : w.store.file = some (s, perm)) (hread : w.readErr = none)
    (hbad : ∀ exp, w.parseUnverified (trimSpace s) ≠ .mapClaims (some exp)) :
    Login w = (loginFlow w).after [.expandHome, .readFile, .parseToken (trimSpace s)] :=
  login_of_undecodable w s perm hflag hexp hfile hread hbad

theorem login_malformed_token_relogin_witness :
    Login (sampleStored "noexp") =
      (loginFlow (sampleStored "noexp")).after
        [.expandHome, .readFile, .parseToken (trimSpace "noexp")] :=
  login_malformed_token_relogin (sampleStored "noexp") "noexp" 0o600 rfl rfl rfl rfl
    (by
      intro exp
      rw [show (sampleStored "noexp").parseUnverified (trimSpace "noexp") = .mapClaims none
        from by decide]
      simp)

/-- C5. Store read errors are split by cause, with an empty `--token` flag:
when reading the token store fails because the file is not there, or with any
error of which `os.IsNotExist` holds, `Login` goes on to the login flow; when
the home directory cannot be expanded, or reading fails with any other error,
whether the file is there or not, `Login` returns that error, wrapped, right
away, having made no call of the login flow. -/
theorem login_store_read_errors_split (w : World) (hflag : w.tokenFlag = "") :
    (w.expandErr = none → w.readErr = none → w.store.file = none →
      Login w = (loginFlow w).after [.expandHome, .readFile]) ∧
    (∀ e, w.expandErr = none → w.readErr = some e → osIsNotExist e = true →
      Login w = (loginFlow w).after [.expandHome, .readFile]) ∧
    (∀ e, w.expandErr = some e →
      Login w = ⟨.returns "" (some (.errorf "failed to read token file"
        (.errorf "failed to expand token file path" e))), [.expandHome], w.store⟩) ∧
    (∀ e, w.expandErr = none → w.readErr = some e → osIsNotExist e = false →
      Login w = ⟨.returns "" (some (.errorf "failed to read token file" e)),
        [.expandHome, .readFile], w.store⟩) := by
  refine ⟨?_, ?_, ?_, ?_⟩
  · intro hexp hread hfile
    simp [Login, hflag, readToken_absent w hexp hread hfile, osIsNotExist]
  · intro e hexp hread hyes
    simp [Login, hflag, readToken_unreadable w e hexp hread, hyes]
  · intro e hexp
    simp [Login, hflag, readToken_noHome w e hexp, osIsNotExist]
  · intro e hexp hread hne
    simp [Login, hflag, readToken_unreadable w e hexp hread, hne]

theorem login_store_read_errors_split_witness :
    Login sampleWorld = (loginFlow sampleWorld).after [.expandHome, .readFile] ∧
    Login { sampleStored "good" with readErr := some (.ext true) } =
      (loginFlow { sampleStored "good" with readErr := some (.ext true) }).after
        [.expandHome, .readFile] ∧
    Login { sampleWorld with expandErr := some (.ext false) } =
      ⟨.returns "" (some (.errorf "failed to read token file"
        (.errorf "failed to expand token file path" (.ext false)))), [.expandHome],
        ⟨none, none⟩⟩ ∧
    Login { sampleWorld with store := ⟨some 0o644, none⟩, readErr := some (.ext false) } =
      ⟨.returns "" (some (.errorf "failed to read token file" (.ext false))),
        [.expandHome, .readFile], ⟨some 0o644, none⟩⟩ ∧
    Login { sampleStored "good" with readErr := some (.ext false) } =
      ⟨.returns "" (some (.errorf "failed to read token file" (.ext false))),
        [.expandHome, .readFile], ⟨some 0o700, some ("good", 0o600)⟩⟩ :=
  ⟨(login_store_read_errors_split sampleWorld rfl).1 rfl rfl rfl,
   (login_store_read_errors_split { sampleStored "good" with readErr := some (.ext true) }
      rfl).2.1 (.ext true) rfl rfl rfl,
   (login_store_read_errors_split { sampleWorld with expandErr := some (.ext false) }
      rfl).2.2.1 (.ext false) rfl,
   (login_store_read_errors_split
      { sampleWorld with store := ⟨some 0o644, none⟩, readErr := some (.ext false) }
      rfl).2.2.2 (.ext false) rfl rfl rfl,
   (login_store_read_errors_split { sampleStored "good" with readErr := some (.ext false) }
      rfl).2.2.2 (.ext false) rfl rfl rfl⟩

/-- C6, as stated, fails. The expiry claim 9223372000000000000 is a whole number
of seconds that `int64` holds, its instant lies after the reading of the clock,
and `isTokenExpired` reports the token expired: `time.Unix` wraps. -/
theorem far_expiry_reported_expired :
    (sampleStored "far").parseUnverified "far" =
      .mapClaims (some ⟨9223372000000000000, 0⟩) ∧
    IsWholeSecondsOf ⟨9223372000000000000, 0⟩ 9223372000000000000 ∧
    (9223372000000000000 : Int) < 9223372036854775808 ∧
    (sampleStored "far").now < unixInstant 9223372000000000000 ∧
    (isTokenExpired (sampleStored "far") "far").1 = (true, none) := by
  decide

/-- C6, amended. Expiry comparison is strict, on whole seconds: for every token
that decodes to claims with a numeric expiry `exp` whose whole seconds `t`
(`exp` with its fraction discarded) are seconds that `time.Unix` takes without
wrapping, `isTokenExpired` returns no error and reports expired exactly when
the current time is after the instant `t` whole seconds after the epoch, so not
when the two are equal; and a stored token whose expiry instant is the current
instant is returned by `Login`. -/
theorem isTokenExpired_strict (w : World) (tokenString : String) (exp : Float64) (t : Int)
    (hparse : w.parseUnverified tokenString = .mapClaims (some exp))
    (hwhole : IsWholeSecondsOf exp t)
    (hlo : -9223372036854775808 ≤ t) (hrep : t + 62135596800 < 9223372036854775808) :
    (isTokenExpired w tokenString).1.2 = none ∧
    ((isTokenExpired w tokenString).1.1 = true ↔ unixInstant t < w.now) ∧
    (w.now = unixInstant t → (isTokenExpired w tokenString).1 = (false, none)) ∧
    (∀ s perm, w.tokenFlag = "" → w.expandErr = none → w.store.file = some (s, perm) →
      w.readErr = none → trimSpace s = tokenString → w.now = unixInstant t →
      (Login w).outcome = .returns tokenString none) := by
  have hconv := int64OfFloat_whole w.int64Unrepresentable exp t hwhole hlo (by omega)
  have hiff := timeAfter_iff w t hlo hrep
  have hexpired : (isTokenExpired w tokenString).1 =
      (timeAfter (timeNow w.now) (timeUnix t), none) := by
    unfold isTokenExpired
    simp only [hparse, hconv]
    cases timeAfter (timeNow w.now) (timeUnix t) <;> rfl
  refine ⟨?_, ?_, ?_, ?_⟩
  · rw [hexpired]
  · rw [hexpired]
    exact hiff
  · intro hnow
    rw [hexpired]
    cases hafter : timeAfter (timeNow w.now) (timeUnix t) with
    | false => rfl
    | true => exact absurd (hiff.mp hafter) (by omega)
  · intro s perm hflag hexp hfile hread hs hnow
    subst hs
    rw [login_of_valid w s perm exp hflag hexp hfile hread hparse
      (by rw [hconv]; exact hrep) (by rw [hconv]; exact le_of_eq hnow)]

theorem isTokenExpired_strict_witness :
    (isTokenExpired (sampleAtExpiry "frac") "frac").1 = (false, none) ∧
    (isTokenExpired (sampleLater "frac") "frac").1.1 = true ∧
    (Login (sampleAtExpiry "frac")).outcome = .returns "frac" none :=
  have h := isTokenExpired_strict (sampleAtExpiry "frac") "frac" ⟨201, -1⟩ 100
    (by decide) (by decide) (by decide) (by decide)
  have h2 := isTokenExpired_strict (sampleLater "frac") "frac" ⟨201, -1⟩ 100
    (by decide) (by decide) (by decide) (by decide)
  ⟨h.2.2.1 (by decide), h2.2.1.mpr (by decide),
    h.2.2.2 "frac" 0o600 rfl rfl rfl rfl (by decide) (by decide)⟩

/-- C7. PKCE challenge derivation: for every verifier `v`,
`GenerateCodeChallenge v` is base64url-no-padding(SHA-256(v)); the code
challenge in the authorization URL that `Login` opens, computed with a running
hash, is `GenerateCodeChallenge` of the verifier made from the first 32 random
bytes; and it is `GenerateCodeChallenge` of the very verifier that the same run
sends as `code_verifier` in the token exchange. -/
theorem code_challenge_derivation (w : World) (v : String) :
    GenerateCodeChallenge w.sum256 v = specCodeChallenge w.sum256 v ∧
    rawURLEncodeToString ((sha256New.write (bytesOf v)).sum w.sum256 []) =
      GenerateCodeChallenge w.sum256 v ∧
    (∀ u, Event.openURL u ∈ (Login w).trace →
      valuesGet u.values "code_challenge" =
        GenerateCodeChallenge w.sum256 (hexEncodeToString (w.rand.take 32))) ∧
    (∀ u code ver, Event.openURL u ∈ (Login w).trace →
      Event.exchange code ver ∈ (Login w).trace →
      valuesGet u.values "code_challenge" = GenerateCodeChallenge w.sum256 ver) := by
  refine ⟨?_, inline_challenge w.sum256 v, ?_, ?_⟩
  · simp only [GenerateCodeChallenge, specCodeChallenge, rawURLEncodeToString,
      rawURLEncode_eq_strip]
  · intro u hu
    obtain ⟨h56, rfl⟩ := login_openURL w u hu
    exact flowAuthURL_challenge w h56
  · intro u code ver hu hx
    obtain ⟨h56, rfl⟩ := login_openURL w u hu
    obtain ⟨_, rfl⟩ := login_exchange w code ver hx
    exact flowAuthURL_challenge w h56

theorem code_challenge_derivation_witness :
    GenerateCodeChallenge sampleWorld.sum256 "hello wo" =
      specCodeChallenge sampleWorld.sum256 "hello wo" ∧
    valuesGet (flowAuthURL sampleWorld).values "code_challenge" =
      GenerateCodeChallenge sampleWorld.sum256
        "0707070707070707070707070707070707070707070707070707070707070707" :=
  ⟨(code_challenge_derivation sampleWorld "hello wo").1,
    (code_challenge_derivation sampleWorld "hello wo").2.2.2 (flowAuthURL sampleWorld)
      "abc123" "0707070707070707070707070707070707070707070707070707070707070707"
      (by decide) (by decide)⟩

/-- C8. Verifier and state encoding: when a read of `n` bytes from the random
source succeeds with the bytes `b`, `randomBytesInHex n` returns with no error
the lowercase hexadecimal encoding of `b`: `2 * n` characters, each one of
`0123456789abcdef`, that decode back to `b`. `Login` reads the random source
with 32 and with 24 only; the verifier it sends in the token exchange is the
encoding of the first 32 bytes (64 characters) and the state in the
authorization URL is the encoding of the next 24 bytes (48 characters). -/
theorem randomBytesInHex_encoding (w : World) (n : Nat) (src b rest : List Byte)
    (h : readFull n src = (.ok b, rest)) :
    randomBytesInHex n src = ((hexEncodeToString b, none), rest) ∧
    b.length = n ∧
    (hexEncodeToString b).length = 2 * n ∧
    (∀ c ∈ (hexEncodeToString b).data, c ∈ "0123456789abcdef".data) ∧
    hexDecodeString (hexEncodeToString b) = some b ∧
    (∀ k, Event.readRandom k ∈ (Login w).trace → k = 32 ∨ k = 24) ∧
    (∀ code ver, Event.exchange code ver ∈ (Login w).trace →
      readFull 32 w.rand = (.ok (w.rand.take 32), w.rand.drop 32) ∧
      ver = hexEncodeToString (w.rand.take 32) ∧ ver.length = 64) ∧
    (∀ u, Event.openURL u ∈ (Login w).trace →
      readFull 24 (w.rand.drop 32) = (.ok ((w.rand.drop 32).take 24), w.rand.drop 56) ∧
      valuesGet u.values "state" = hexEncodeToString ((w.rand.drop 32).take 24) ∧
      (valuesGet u.values "state").length = 48) := by
  have hb : n ≤ src.length ∧ b = src.take n ∧ rest = src.drop n := by
    unfold readFull at h
    by_cases hn : n ≤ src.length
    · rw [if_pos hn] at h
      injection h with h1 h2
      injection h1 with h1
      exact ⟨hn, h1.symm, h2.symm⟩
    · rw [if_neg hn] at h
      injection h with h1 _
      cases h1
  obtain ⟨hn, rfl, rfl⟩ := hb
  have hlen : (src.take n).length = n := by
    rw [List.length_take]; omega
  refine ⟨randomBytesInHex_ok n src hn, hlen, ?_, hexEncodeToString_chars _,
    hexDecode_encode _, login_readRandom w, ?_, ?_⟩
  · rw [hexEncodeToString_length, hlen]
  · intro code ver hx
    obtain ⟨h56, rfl⟩ := login_exchange w code ver hx
    refine ⟨?_, rfl, ?_⟩
    · simp [readFull, show 32 ≤ w.rand.length by omega]
    · rw [hexEncodeToString_length, List.length_take]; omega
  · intro u hu
    obtain ⟨h56, rfl⟩ := login_openURL w u hu
    rw [flowAuthURL_state w h56]
    refine ⟨?_, rfl, ?_⟩
    · simp [readFull, show 24 ≤ w.rand.length - 32 by omega]
    · rw [hexEncodeToString_length, List.length_take, List.length_drop]; omega

theorem randomBytesInHex_encoding_witness :
    randomBytesInHex 3 [0, 171, 255, 16] = (("00abff", none), [16]) ∧
    hexDecodeString "00abff" = some [0, 171, 255] ∧
    (valuesGet (flowAuthURL sampleWorld).values "state").length = 48 :=
  have h := randomBytesInHex_encoding sampleWorld 3 [0, 171, 255, 16] [0, 171, 255] [16] rfl
  ⟨h.1, h.2.2.2.2.1, (h.2.2.2.2.2.2.2 (flowAuthURL sampleWorld) (by decide)).2.2⟩

/-- C9. Verifier and state always differ: whenever both reads of the random
source succeed (it holds 32 bytes and then 24 more), the verifier is the
encoding of the first 32 bytes and the state the encoding of the next 24 bytes,
read separately, and the two strings differ; the state in the authorization URL
of the run and the verifier in its token exchange are these two. -/
theorem verifier_and_state_differ (w : World) (h : 56 ≤ w.rand.length) :
    randomBytesInHex 32 w.rand =
      ((hexEncodeToString (w.rand.take 32), none), w.rand.drop 32) ∧
    randomBytesInHex 24 (w.rand.drop 32) =
      ((hexEncodeToString ((w.rand.drop 32).take 24), none), (w.rand.drop 32).drop 24) ∧
    hexEncodeToString (w.rand.take 32) ≠ hexEncodeToString ((w.rand.drop 32).take 24) ∧
    (∀ u, Event.openURL u ∈ (Login w).trace →
      valuesGet u.values "state" = hexEncodeToString ((w.rand.drop 32).take 24)) ∧
    (∀ code ver, Event.exchange code ver ∈ (Login w).trace →
      ver = hexEncodeToString (w.rand.take 32)) ∧
    (∀ u code ver, Event.openURL u ∈ (Login w).trace →
      Event.exchange code ver ∈ (Login w).trace → ver ≠ valuesGet u.values "state") := by
  have h24 : 24 ≤ (w.rand.drop 32).length := by
    rw [List.length_drop]; omega
  have hne : hexEncodeToString (w.rand.take 32) ≠
      hexEncodeToString ((w.rand.drop 32).take 24) := by
    intro heq
    have hl := congrArg String.length heq
    rw [hexEncodeToString_length, hexEncodeToString_length, List.length_take,
      List.length_take, List.length_drop] at hl
    omega
  refine ⟨randomBytesInHex_ok 32 w.rand (by omega), randomBytesInHex_ok 24 _ h24, hne,
    ?_, ?_, ?_⟩
  · intro u hu
    obtain ⟨_, rfl⟩ := login_openURL w u hu
    exact flowAuthURL_state w h
  · intro code ver hx
    exact (login_exchange w code ver hx).2
  · intro u code ver hu hx
    obtain ⟨_, rfl⟩ := login_openURL w u hu
    obtain ⟨_, rfl⟩ := login_exchange w code ver hx
    rw [flowAuthURL_state w h]
    exact hne

theorem verifier_and_state_differ_witness :
    hexEncodeToString (sampleWorld.rand.take 32) ≠
      hexEncodeToString ((sampleWorld.rand.drop 32).take 24) ∧
    valuesGet (flowAuthURL sampleWorld).values "state" =
      hexEncodeToString ((sampleWorld.rand.drop 32).take 24) :=
  have h := verifier_and_state_differ sampleWorld (by decide)
  ⟨h.2.2.1, h.2.2.2.1 (flowAuthURL sampleWorld) (by decide)⟩

/-- C10. Authorization URL contents: every URL that `Login` hands to the browser
is the endpoint `https://fluidstack.us.auth0.com/authorize` with exactly the
query values response_type = code, client_id = the fixed client id,
redirect_uri = http://localhost:5173, scope = "openid profile email
offline_access", state = the state of the run, code_challenge_method = S256,
code_challenge = the challenge of the verifier of the run, and audience =
https://api.fluidstack.io; and the `--client-id` and `--client-secret` flags
change nothing in what `Login` does. -/
theorem authorization_url_contents (w : World) :
    (∀ u, Event.openURL u ∈ (Login w).trace →
      u = ⟨"https://fluidstack.us.auth0.com/authorize",
        [("response_type", "code"),
         ("client_id", "diPhN35HH6jVXs615vsafkdIQM4Y5rF8"),
         ("redirect_uri", "http://localhost:5173"),
         ("scope", "openid profile email offline_access"),
         ("state", hexEncodeToString ((w.rand.drop 32).take 24)),
         ("code_challenge_method", "S256"),
         ("code_challenge",
            GenerateCodeChallenge w.sum256 (hexEncodeToString (w.rand.take 32))),
         ("audience", "https://api.fluidstack.io")]⟩) ∧
    ∀ clientId clientSecret,
      Login { w with clientIdFlag := clientId, clientSecretFlag := clientSecret } =
        Login w := by
  refine ⟨?_, fun _ _ => rfl⟩
  intro u h
  obtain ⟨h56, rfl⟩ := login_openURL w u h
  exact flowAuthURL_eq w h56

theorem authorization_url_contents_witness :
    flowAuthURL sampleWorld =
      ⟨"https://fluidstack.us.auth0.com/authorize",
        [("response_type", "code"),
         ("client_id", "diPhN35HH6jVXs615vsafkdIQM4Y5rF8"),
         ("redirect_uri", "http://localhost:5173"),
         ("scope", "openid profile email offline_access"),
         ("state", "090909090909090909090909090909090909090909090909"),
         ("code_challenge_method", "S256"),
         ("code_challenge", "MDcwNzA3MDcwNzA3MDcwNzA3MDcwNzA3MDcwNzA3MDc"),
         ("audience", "https://api.fluidstack.io")]⟩ ∧
    Login { sampleWorld with clientIdFlag := "other", clientSecretFlag := "secret" } =
      Login sampleWorld :=
  have h := authorization_url_contents sampleWorld
  ⟨(h.1 (flowAuthURL sampleWorld) (by decide)).trans (by decide), h.2 "other" "secret"⟩

/-! ## The callback listener -/

/-- The code that the handler sends on `codeChan` is the code of the first
request that carries one. -/
theorem serveCallbacks_code (reqs : List Request) :
    (serveCallbacks reqs).1 =
      (reqs.find? (fun r => valuesGet r.query "code" != "")).map
        (fun r => valuesGet r.query "code") := by
  induction reqs with
  | nil => rfl
  | cons r rest ih =>
    unfold serveCallbacks
    by_cases hc : valuesGet r.query "code" = ""
    · simp [hc, ih]
    · simp [hc]

theorem serveCallbacks_no_close (reqs : List Request) :
    Event.serverClose ∉ (serveCallbacks reqs).2 := by
  induction reqs with
  | nil => simp [serveCallbacks]
  | cons r rest ih =>
    unfold serveCallbacks
    by_cases hc : valuesGet r.query "code" = ""
    · simp [hc, ih]
    · simp [hc]

/-- What `waitForAuthorizationCode` comes to when the port is bound. -/
theorem waitForAuthorizationCode_bound (w : World) (authURL : AuthURL)
    (hbind : w.bindOk = true) :
    waitForAuthorizationCode w authURL =
      match (serveCallbacks w.callbacks).1 with
      | none => (none, [.listenAndServe, .openURL authURL] ++ (serveCallbacks w.callbacks).2)
      | some code =>
        (some (code, none),
          [.listenAndServe, .openURL authURL] ++ (serveCallbacks w.callbacks).2 ++
            [.serverClose]) := by
  simp [waitForAuthorizationCode, hbind]

/-- What `waitForAuthorizationCode` comes to when the port is not bound. -/
theorem waitForAuthorizationCode_unbound (w : World) (authURL : AuthURL)
    (hbind : w.bindOk = false) :
    waitForAuthorizationCode w authURL = (none, [.listenAndServe, .openURL authURL]) := by
  simp [waitForAuthorizationCode, hbind]

/-- The error that `waitForAuthorizationCode` returns is always nil. -/
theorem waitForAuthorizationCode_no_error (w : World) (authURL : AuthURL)
    (code : String) (err : GoError) :
    (waitForAuthorizationCode w authURL).1 ≠ some (code, some err) := by
  unfold waitForAuthorizationCode
  generalize (if w.bindOk = true then serveCallbacks w.callbacks else (none, [])) = served
  rcases served with ⟨_ | c, ev⟩ <;> simp

/-- The listener is closed only when `waitForAuthorizationCode` returns. -/
theorem waitForAuthorizationCode_blocked (w : World) (authURL : AuthURL)
    (h : (waitForAuthorizationCode w authURL).1 = none) :
    Event.serverClose ∉ (waitForAuthorizationCode w authURL).2 := by
  cases hbind : w.bindOk with
  | false => simp [waitForAuthorizationCode_unbound w authURL hbind]
  | true =>
    rw [waitForAuthorizationCode_bound w authURL hbind] at h ⊢
    have hno := serveCallbacks_no_close w.callbacks
    cases hs : (serveCallbacks w.callbacks).1 with
    | none => simp [hs, hno]
    | some c => simp [hs] at h

/-- C11, as stated, fails. The first callback carries no code and is answered
400, yet `waitForAuthorizationCode` returns no error: it goes on to the next
callback, answers it 200 and returns its code, and `Login` returns the access
token; and with that first callback alone `Login` never returns and the
listener is never closed. -/
theorem callback_without_code_not_fatal :
    valuesGet (⟨[("error", "access_denied"), ("state", "s")]⟩ : Request).query "code" = "" ∧
    waitForAuthorizationCode sampleDenied (flowAuthURL sampleDenied) =
      (some ("abc123", none),
        [.listenAndServe, .openURL (flowAuthURL sampleDenied), .respond 400, .respond 200,
          .serverClose]) ∧
    (Login sampleDenied).outcome = .returns "xyz789" none ∧
    (Login { sampleWorld with callbacks := [⟨[("error", "access_denied")]⟩] }).outcome =
      .blocks ∧
    Event.serverClose ∉
      (Login { sampleWorld with callbacks := [⟨[("error", "access_denied")]⟩] }).trace := by
  decide

/-- C11, amended. Callback without a code is answered 400 and the flow keeps
waiting: when the first callback request has no code parameter (or an empty
one), the handler responds with HTTP 400 and hands nothing to the waiting flow;
`waitForAuthorizationCode` comes to what it comes to on the requests that
follow: it returns the code of the first of them that carries one, never an
error, and while none arrives it does not return and the listener is not
closed. -/
theorem callback_without_code_keeps_waiting (w : World) (authURL : AuthURL)
    (r : Request) (rest : List Request)
    (hbind : w.bindOk = true) (hcb : w.callbacks = r :: rest)
    (hcode : valuesGet r.query "code" = "") :
    serveCallbacks (r :: rest) =
      ((serveCallbacks rest).1, .respond 400 :: (serveCallbacks rest).2) ∧
    (waitForAuthorizationCode w authURL).1 =
      (waitForAuthorizationCode { w with callbacks := rest } authURL).1 ∧
    (waitForAuthorizationCode w authURL).1 =
      (rest.find? (fun q => valuesGet q.query "code" != "")).map
        (fun q => (valuesGet q.query "code", none)) ∧
    (∀ code err, (waitForAuthorizationCode w authURL).1 ≠ some (code, some err)) ∧
    ((waitForAuthorizationCode w authURL).1 = none →
      Event.serverClose ∉ (waitForAuthorizationCode w authURL).2) := by
  have hstep : serveCallbacks (r :: rest) =
      ((serveCallbacks rest).1, .respond 400 :: (serveCallbacks rest).2) := by
    rw [serveCallbacks]
    simp [hcode]
  have hrest : ({ w with callbacks := rest } : World).bindOk = true := hbind
  refine ⟨hstep, ?_, ?_, waitForAuthorizationCode_no_error w authURL,
    waitForAuthorizationCode_blocked w authURL⟩
  · rw [waitForAuthorizationCode_bound w authURL hbind,
      waitForAuthorizationCode_bound _ authURL hrest, hcb, hstep]
    show _ = (match (serveCallbacks rest).1 with
      | none => _
      | some code => _ : Option (String × Option GoError) × List Event).1
    cases (serveCallbacks rest).1 <;> rfl
  · have hfind := serveCallbacks_code rest
    rw [waitForAuthorizationCode_bound w authURL hbind, hcb, hstep]
    cases hs : (serveCallbacks rest).1 with
    | none =>
      rw [hs] at hfind
      cases hf : rest.find? (fun q => valuesGet q.query "code" != "") with
      | none => rfl
      | some q => rw [hf] at hfind; cases hfind
    | some c =>
      rw [hs] at hfind
      cases hf : rest.find? (fun q => valuesGet q.query "code" != "") with
      | none => rw [hf] at hfind; cases hfind
      | some q =>
        rw [hf] at hfind
        simp only [Option.map_some', Option.some.injEq] at hfind
        simp [hfind]

theorem callback_without_code_keeps_waiting_witness :
    (waitForAuthorizationCode sampleDenied (flowAuthURL sampleDenied)).1 =
      some ("abc123", none) :=
  ((callback_without_code_keeps_waiting sampleDenied (flowAuthURL sampleDenied)
    ⟨[("error", "access_denied"), ("state", "s")]⟩ [⟨[("code", "abc123")]⟩]
    rfl rfl (by decide)).2.2.1).trans (by decide)

/-! ## Reaching the login flow -/

theorem readToken_no_random (w : World) (n : Nat) :
    Event.readRandom n ∉ (readToken w).2 := by
  unfold readToken
  split
  · simp
  · split <;> simp

theorem isTokenExpired_no_random (w : World) (tokenString : String) (n : Nat) :
    Event.readRandom n ∉ (isTokenExpired w tokenString).2 := by
  unfold isTokenExpired
  split
  · simp
  · simp only
    split <;> simp
  · simp
  · simp

/-- A run of `Login` that reads the random source is a run of the login flow
after the calls that read and check the stored token. -/
theorem login_flow_of_random (w : World) (h : Event.readRandom 32 ∈ (Login w).trace) :
    ∃ pre, Login w = (loginFlow w).after pre := by
  have h1 := readToken_no_random w 32
  have h2 := isTokenExpired_no_random w (readToken w).1.1 32
  unfold Login at h ⊢
  simp only at h ⊢
  by_cases hflag : w.tokenFlag ≠ ""
  · rw [if_pos hflag] at h
    simp at h
  · rw [if_neg hflag] at h ⊢
    cases herr : (readToken w).1.2 with
    | some err =>
      simp only [herr] at h ⊢
      by_cases hne : (!osIsNotExist err) = true
      · rw [if_pos hne] at h
        exact absurd h h1
      · rw [if_neg hne]
        exact ⟨_, rfl⟩
    | none =>
      simp only [herr] at h ⊢
      by_cases hok : (isTokenExpired w (readToken w).1.1).1.2 = none ∧
          (isTokenExpired w (readToken w).1.1).1.1 = false
      · rw [if_pos hok] at h
        simp only [List.mem_append] at h
        rcases h with h | h
        · exact absurd h h1
        · exact absurd h h2
      · rw [if_neg hok]
        exact ⟨_, rfl⟩

/-- The login flow, written out, once both reads of the random source have
succeeded. -/
theorem loginFlow_of_rand (w : World) (h : 56 ≤ w.rand.length) :
    loginFlow w =
      match (waitForAuthorizationCode w (flowAuthURL w)).1 with
      | none =>
        ⟨.blocks,
          [.readRandom 32, .readRandom 24] ++ (waitForAuthorizationCode w (flowAuthURL w)).2,
          w.store⟩
      | some (_, some err) =>
        ⟨.returns "" (some err),
          [.readRandom 32, .readRandom 24] ++ (waitForAuthorizationCode w (flowAuthURL w)).2,
          w.store⟩
      | some (code, none) =>
        match w.tokenEndpoint code (hexEncodeToString (w.rand.take 32)) with
        | .error err =>
          ⟨.returns "" (some (.errorf "failed to exchange authorization code" err)),
            [.readRandom 32, .readRandom 24] ++ (waitForAuthorizationCode w (flowAuthURL w)).2 ++
              [.exchange code (hexEncodeToString (w.rand.take 32))], w.store⟩
        | .ok accessToken =>
          match (writeToken w accessToken).1 with
          | some err =>
            ⟨.returns "" (some (.errorf "failed to save token" err)),
              [.readRandom 32, .readRandom 24] ++
                (waitForAuthorizationCode w (flowAuthURL w)).2 ++
                [.exchange code (hexEncodeToString (w.rand.take 32))] ++
                (writeToken w accessToken).2.1,
              (writeToken w accessToken).2.2⟩
          | none =>
            ⟨.returns accessToken none,
              [.readRandom 32, .readRandom 24] ++
                (waitForAuthorizationCode w (flowAuthURL w)).2 ++
                [.exchange code (hexEncodeToString (w.rand.take 32))] ++
                (writeToken w accessToken).2.1,
              (writeToken w accessToken).2.2⟩ := by
  have h24 : 24 ≤ (w.rand.drop 32).length := by
    rw [List.length_drop]; omega
  have hu : loginConfig.authCodeURL (hexEncodeToString ((w.rand.drop 32).take 24))
      [("code_challenge_method", "S256"),
       ("code_challenge",
          GenerateCodeChallenge w.sum256 (hexEncodeToString (w.rand.take 32))),
       ("audience", defaultAudience)] = flowAuthURL w := rfl
  unfold loginFlow
  simp only [randomBytesInHex_ok 32 w.rand (by omega), randomBytesInHex_ok 24 _ h24,
    inline_challenge, hu]

/-- Function `Login` looks at the callback requests only through what the
handler makes of them. -/
theorem login_congr_callbacks (w : World) (cb1 cb2 : List Request)
    (h : serveCallbacks cb1 = serveCallbacks cb2) :
    Login { w with callbacks := cb1 } = Login { w with callbacks := cb2 } := by
  have hwait : ∀ authURL, waitForAuthorizationCode { w with callbacks := cb1 } authURL =
      waitForAuthorizationCode { w with callbacks := cb2 } authURL := by
    intro authURL
    simp only [waitForAuthorizationCode, h]
  have hflow : loginFlow { w with callbacks := cb1 } = loginFlow { w with callbacks := cb2 } := by
    simp only [loginFlow, hwait]
    rfl
  simp only [Login, hflow]
  rfl

/-- The error of `writeToken` is one of its three wrapped errors. -/
theorem writeToken_error (w : World) (token : String) (e : GoError)
    (h : (writeToken w token).1 = some e) :
    (∃ c, w.expandErr = some c ∧ e = .errorf "failed to expand token file path" c) ∨
    (∃ c, w.mkdirErr = some c ∧ e = .errorf "failed to create token file directory" c) ∨
    (∃ c, w.writeErr = some c ∧ e = .errorf "failed to write token file" c) := by
  unfold writeToken at h
  cases hexp : w.expandErr with
  | some c =>
    simp only [hexp, Option.some.injEq] at h
    exact Or.inl ⟨c, rfl, h.symm⟩
  | none =>
    cases hmk : w.mkdirErr with
    | some c =>
      simp only [hexp, hmk, Option.some.injEq] at h
      exact Or.inr (Or.inl ⟨c, rfl, h.symm⟩)
    | none =>
      cases hwr : w.writeErr with
      | some c =>
        simp only [hexp, hmk, hwr, Option.some.injEq] at h
        exact Or.inr (Or.inr ⟨c, rfl, h.symm⟩)
      | none => simp [hexp, hmk, hwr] at h

/-! ## Claims on the callback and on persisting -/

/-- C12, as stated, fails. With port 5173 not bound, `Login` returns no error:
the result of `ListenAndServe` is dropped, the browser is opened all the same,
and `Login` never returns. -/
theorem bind_failure_not_fatal :
    Login { sampleWorld with bindOk := false } =
      ⟨.blocks,
        [.expandHome, .readFile, .readRandom 32, .readRandom 24, .listenAndServe,
          .openURL (flowAuthURL sampleWorld)],
        ⟨none, none⟩⟩ := by
  decide

/-- C12, amended. Callback port bind failure is not detected: when the listener
cannot bind port 5173, `waitForAuthorizationCode` starts it, opens the browser
all the same and never returns, so no error is returned; a run of `Login` that
gets to the login flow and reads its random bytes never returns either, having
opened the browser and left the token store as it was. -/
theorem bind_failure_blocks (w : World) (hbind : w.bindOk = false) :
    (∀ authURL, waitForAuthorizationCode w authURL =
      (none, [.listenAndServe, .openURL authURL])) ∧
    (56 ≤ w.rand.length →
      loginFlow w = ⟨.blocks,
        [.readRandom 32, .readRandom 24, .listenAndServe, .openURL (flowAuthURL w)],
        w.store⟩) ∧
    (56 ≤ w.rand.length → Event.readRandom 32 ∈ (Login w).trace →
      (Login w).outcome = .blocks ∧ Event.openURL (flowAuthURL w) ∈ (Login w).trace ∧
        (Login w).store = w.store) := by
  have hwait := fun authURL => waitForAuthorizationCode_unbound w authURL hbind
  have hflow : 56 ≤ w.rand.length →
      loginFlow w = ⟨.blocks,
        [.readRandom 32, .readRandom 24, .listenAndServe, .openURL (flowAuthURL w)],
        w.store⟩ := by
    intro hrand
    rw [loginFlow_of_rand w hrand, hwait]
    rfl
  refine ⟨hwait, hflow, ?_⟩
  intro hrand hreach
  obtain ⟨pre, hlogin⟩ := login_flow_of_random w hreach
  rw [hlogin, hflow hrand]
  simp [Result.after]

theorem bind_failure_blocks_witness :
    waitForAuthorizationCode { sampleStored "garbage" with bindOk := false }
        (flowAuthURL sampleWorld) =
      (none, [.listenAndServe, .openURL (flowAuthURL sampleWorld)]) ∧
    (Login { sampleStored "garbage" with bindOk := false }).outcome = .blocks ∧
    Event.openURL (flowAuthURL { sampleStored "garbage" with bindOk := false }) ∈
      (Login { sampleStored "garbage" with bindOk := false }).trace ∧
    (Login { sampleStored "garbage" with bindOk := false }).store =
      ⟨some 0o700, some ("garbage", 0o600)⟩ :=
  have h := bind_failure_blocks { sampleStored "garbage" with bindOk := false } rfl
  ⟨h.1 (flowAuthURL sampleWorld), h.2.2 (by decide) (by decide)⟩

/-- C13, as stated, fails. The exchange gives the access token `xyz789` and
writing the token file fails: `Login` returns the empty string with the
error, not `xyz789`. -/
theorem persist_failure_loses_token :
    Login { sampleWorld with writeErr := some (.ext false) } =
      ⟨.returns "" (some (.errorf "failed to save token"
          (.errorf "failed to write token file" (.ext false)))),
        [.expandHome, .readFile, .readRandom 32, .readRandom 24, .listenAndServe,
          .openURL (flowAuthURL sampleWorld), .respond 200, .serverClose,
          .exchange "abc123" (hexEncodeToString (sampleWorld.rand.take 32)),
          .expandHome, .mkdirAll 0o700, .writeFile "xyz789" 0o600],
        ⟨some 0o700, none⟩⟩ := by
  decide

/-- C13, amended. Persist failure loses the token for the caller: whenever the
token exchange succeeds with an access token but `writeToken` fails (path
expansion, directory creation or file write), the login flow, and so every run
of `Login` that gets to it, returns the empty string together with that error
wrapped as "failed to save token"; the access token is not returned. -/
theorem persist_failure_returns_error (w : World) (code accessToken : String) (e : GoError)
    (hrand : 56 ≤ w.rand.length)
    (hwait : (waitForAuthorizationCode w (flowAuthURL w)).1 = some (code, none))
    (hx : w.tokenEndpoint code (hexEncodeToString (w.rand.take 32)) = .ok accessToken)
    (hpersist : (writeToken w accessToken).1 = some e) :
    (loginFlow w).outcome = .returns "" (some (.errorf "failed to save token" e)) ∧
    (Event.readRandom 32 ∈ (Login w).trace →
      (Login w).outcome = .returns "" (some (.errorf "failed to save token" e))) ∧
    ((∃ c, w.expandErr = some c ∧ e = .errorf "failed to expand token file path" c) ∨
     (∃ c, w.mkdirErr = some c ∧ e = .errorf "failed to create token file directory" c) ∨
     (∃ c, w.writeErr = some c ∧ e = .errorf "failed to write token file" c)) := by
  have hflow : (loginFlow w).outcome = .returns "" (some (.errorf "failed to save token" e)) := by
    rw [loginFlow_of_rand w hrand]
    simp only [hwait, hx, hpersist]
  refine ⟨hflow, ?_, writeToken_error w accessToken e hpersist⟩
  intro hreach
  obtain ⟨pre, hlogin⟩ := login_flow_of_random w hreach
  rw [hlogin]
  exact hflow

theorem persist_failure_returns_error_witness :
    (loginFlow { sampleWorld with mkdirErr := some (.ext false) }).outcome =
      .returns "" (some (.errorf "failed to save token"
        (.errorf "failed to create token file directory" (.ext false)))) ∧
    (Login { sampleWorld with mkdirErr := some (.ext false) }).outcome =
      .returns "" (some (.errorf "failed to save token"
        (.errorf "failed to create token file directory" (.ext false)))) :=
  have h := persist_failure_returns_error { sampleWorld with mkdirErr := some (.ext false) }
    "abc123" "xyz789" (.errorf "failed to create token file directory" (.ext false))
    (by decide) (by decide) rfl (by decide)
  ⟨h.1, h.2.1 (by decide)⟩

/-- C14. Successful login persists exactly the access token: with an empty
`--token` flag, no token file and a read of it that fails for that reason
alone, both reads of the random source succeeding, the
port bound, a first callback that delivers the non-empty code `c`, a token
endpoint that answers `c` and the verifier of the run with the access token `a`,
and a directory and a file that can be written, `Login` returns `a` with no
error; it calls `MkdirAll` with mode 0700 and then `WriteFile` with the data `a`
and mode 0600; afterwards the token file holds exactly `a` with mode 0600, in a
directory that has mode 0700 when it had to be created. -/
theorem successful_login_persists_token (w : World) (r : Request) (rest : List Request)
    (code accessToken : String)
    (hflag : w.tokenFlag = "") (hexp : w.expandErr = none) (hread : w.readErr = none)
    (hfile : w.store.file = none)
    (hrand : 56 ≤ w.rand.length) (hbind : w.bindOk = true)
    (hcb : w.callbacks = r :: rest) (hcode : valuesGet r.query "code" = code)
    (hne : code ≠ "")
    (hx : w.tokenEndpoint code (hexEncodeToString (w.rand.take 32)) = .ok accessToken)
    (hmkdir : w.mkdirErr = none) (hwrite : w.writeErr = none) :
    Login w =
      ⟨.returns accessToken none,
        [.expandHome, .readFile, .readRandom 32, .readRandom 24, .listenAndServe,
          .openURL (flowAuthURL w), .respond 200, .serverClose,
          .exchange code (hexEncodeToString (w.rand.take 32)),
          .expandHome, .mkdirAll 0o700, .writeFile accessToken 0o600],
        ⟨some (w.store.dir.getD 0o700), some (accessToken, 0o600)⟩⟩ ∧
    (w.store.dir = none → (Login w).store = ⟨some 0o700, some (accessToken, 0o600)⟩) := by
  have hserve : serveCallbacks w.callbacks = (some code, [.respond 200]) := by
    rw [hcb, serveCallbacks]
    simp [hcode, hne]
  have hwait : waitForAuthorizationCode w (flowAuthURL w) =
      (some (code, none),
        [.listenAndServe, .openURL (flowAuthURL w), .respond 200, .serverClose]) := by
    rw [waitForAuthorizationCode_bound w _ hbind, hserve]
    rfl
  have hwt : writeToken w accessToken =
      (none, [.expandHome, .mkdirAll 0o700, .writeFile accessToken 0o600],
        ⟨some (w.store.dir.getD 0o700), some (accessToken, 0o600)⟩) := by
    simp [writeToken, hexp, hmkdir, hwrite, hfile]
  have hflow := loginFlow_of_rand w hrand
  simp only [hwait, hx, hwt] at hflow
  have hlogin : Login w =
      ⟨.returns accessToken none,
        [.expandHome, .readFile, .readRandom 32, .readRandom 24, .listenAndServe,
          .openURL (flowAuthURL w), .respond 200, .serverClose,
          .exchange code (hexEncodeToString (w.rand.take 32)),
          .expandHome, .mkdirAll 0o700, .writeFile accessToken 0o600],
        ⟨some (w.store.dir.getD 0o700), some (accessToken, 0o600)⟩⟩ := by
    simp [Login, hflag, readToken_absent w hexp hread hfile, osIsNotExist, hflow,
      Result.after]
  refine ⟨hlogin, ?_⟩
  intro hdir
  rw [hlogin, hdir]
  rfl

theorem successful_login_persists_token_witness :
    Login sampleWorld =
      ⟨.returns "xyz789" none,
        [.expandHome, .readFile, .readRandom 32, .readRandom 24, .listenAndServe,
          .openURL (flowAuthURL sampleWorld), .respond 200, .serverClose,
          .exchange "abc123" (hexEncodeToString (sampleWorld.rand.take 32)),
          .expandHome, .mkdirAll 0o700, .writeFile "xyz789" 0o600],
        ⟨some 0o700, some ("xyz789", 0o600)⟩⟩ :=
  (successful_login_persists_token sampleWorld ⟨[("code", "abc123"), ("state", "s")]⟩ []
    "abc123" "xyz789" rfl rfl rfl rfl (by decide) rfl rfl (by decide) (by decide) rfl rfl
    rfl).1

/-- C15. No state cross-check in the callback: two callback requests with the
same non-empty code, whatever their state parameters (a missing one, or one
that is not the state of the run), get the same answer 200 from the handler
and make `waitForAuthorizationCode` return the same code, with the same calls;
`Login` does the same on both. -/
theorem callback_ignores_state (w : World) (r1 r2 : Request) (rest1 rest2 : List Request)
    (hcode : valuesGet r1.query "code" = valuesGet r2.query "code")
    (hne : valuesGet r1.query "code" ≠ "") :
    serveCallbacks (r1 :: rest1) = (some (valuesGet r1.query "code"), [.respond 200]) ∧
    serveCallbacks (r2 :: rest2) = serveCallbacks (r1 :: rest1) ∧
    (∀ authURL, waitForAuthorizationCode { w with callbacks := r2 :: rest2 } authURL =
      waitForAuthorizationCode { w with callbacks := r1 :: rest1 } authURL) ∧
    Login { w with callbacks := r2 :: rest2 } = Login { w with callbacks := r1 :: rest1 } := by
  have h1 : serveCallbacks (r1 :: rest1) =
      (some (valuesGet r1.query "code"), [.respond 200]) := by
    rw [serveCallbacks]
    simp [hne]
  have h2 : serveCallbacks (r2 :: rest2) = serveCallbacks (r1 :: rest1) := by
    rw [h1, serveCallbacks]
    simp [← hcode, hne]
  refine ⟨h1, h2, ?_, login_congr_callbacks w _ _ h2⟩
  intro authURL
  simp only [waitForAuthorizationCode, h2]

theorem callback_ignores_state_witness :
    serveCallbacks [⟨[("code", "abc123")]⟩] = (some "abc123", [.respond 200]) ∧
    Login { sampleWorld with callbacks := [⟨[("code", "abc123"), ("state", "forged")]⟩] } =
      Login { sampleWorld with callbacks := [⟨[("code", "abc123")]⟩] } :=
  have h := callback_ignores_state sampleWorld ⟨[("code", "abc123")]⟩
    ⟨[("code", "abc123"), ("state", "forged")]⟩ [] [] (by decide) (by decide)
  ⟨h.1, h.2.2.2⟩


/-! ## White space -/

theorem trimSpace_data (s : String) :
    (trimSpace s).data = (s.data.dropWhile isSpace).rdropWhile isSpace := rfl

/-- Trimming takes away a run of white space at the front and one at the end. -/
theorem trim_split (l : List Char) :
    l = l.takeWhile isSpace ++ (l.dropWhile isSpace).rdropWhile isSpace ++
      (l.dropWhile isSpace).rtakeWhile isSpace := by
  have hback : ∀ m : List Char, m.rdropWhile isSpace ++ m.rtakeWhile isSpace = m := by
    intro m
    have h := congrArg List.reverse (List.takeWhile_append_dropWhile isSpace m.reverse)
    rw [List.reverse_append, List.reverse_reverse] at h
    exact h
  rw [List.append_assoc, hback, List.takeWhile_append_dropWhile]

theorem trim_edges (l : List Char) :
    edgesNotSpace ((l.dropWhile isSpace).rdropWhile isSpace) = true := by
  have hlast : ((l.dropWhile isSpace).rdropWhile isSpace).getLast?.all
      (fun c => !isSpace c) = true := by
    by_cases hnil : (l.dropWhile isSpace).rdropWhile isSpace = []
    · simp [hnil]
    · rw [List.getLast?_eq_getLast _ hnil]
      have := List.rdropWhile_last_not isSpace (l.dropWhile isSpace) hnil
      simpa using this
  have hhead : ((l.dropWhile isSpace).rdropWhile isSpace).head?.all
      (fun c => !isSpace c) = true := by
    by_cases hnil : (l.dropWhile isSpace).rdropWhile isSpace = []
    · simp [hnil]
    · have hpre : (l.dropWhile isSpace).rdropWhile isSpace <+: l.dropWhile isSpace :=
        List.rdropWhile_prefix isSpace _
      have hne : l.dropWhile isSpace ≠ [] := hpre.ne_nil hnil
      rw [List.head?_eq_head hnil, hpre.head hnil]
      have := List.head_dropWhile_not isSpace l hne
      simp [this]
  simp [edgesNotSpace, hhead, hlast]

theorem trim_fixed (l : List Char) :
    (l.dropWhile isSpace).rdropWhile isSpace = l ↔ edgesNotSpace l = true := by
  constructor
  · intro h
    have := trim_edges l
    rwa [h] at this
  · intro h
    simp only [edgesNotSpace, Bool.and_eq_true] at h
    obtain ⟨hhead, hlast⟩ := h
    have hfront : l.dropWhile isSpace = l := by
      cases l with
      | nil => rfl
      | cons a rest =>
        have ha : isSpace a = false := by simpa using hhead
        simp [List.dropWhile_cons, ha]
    rw [hfront, List.rdropWhile_eq_self_iff]
    intro hl
    rw [List.getLast?_eq_getLast _ hl] at hlast
    simpa using hlast

theorem writeToken_ok (w : World) (token : String) (h : (writeToken w token).1 = none) :
    w.expandErr = none ∧
    (writeToken w token).2.2.file =
      some (token, (w.store.file.map Prod.snd).getD 0o600) := by
  unfold writeToken at h ⊢
  cases hexp : w.expandErr with
  | some c => simp [hexp] at h
  | none =>
    cases hmk : w.mkdirErr with
    | some c => simp [hexp, hmk] at h
    | none =>
      cases hwr : w.writeErr with
      | some c => simp [hexp, hmk, hwr] at h
      | none => simp

theorem isTokenExpired_parses (w : World) (tokenString : String) :
    ∃ rest, (isTokenExpired w tokenString).2 = .parseToken tokenString :: rest := by
  unfold isTokenExpired
  split
  · exact ⟨_, rfl⟩
  · simp only
    split <;> exact ⟨_, rfl⟩
  · exact ⟨_, rfl⟩
  · exact ⟨_, rfl⟩

/-- With no `--token` and a store that reads as `s`, `Login` decodes the
trimmed content, and the token it returns without the login flow is the
trimmed content. -/
theorem login_checks_trimmed (w : World) (s : String) (perm : Nat)
    (hflag : w.tokenFlag = "") (hexp : w.expandErr = none)
    (hfile : w.store.file = some (s, perm)) (hread : w.readErr = none) :
    (Login w).trace.take 3 = [.expandHome, .readFile, .parseToken (trimSpace s)] ∧
    ∀ token, (Login w).outcome = .returns token none →
      Event.readRandom 32 ∉ (Login w).trace → token = trimSpace s := by
  have hr := readToken_present w s perm hexp hfile hread
  obtain ⟨rest, hparse⟩ := isTokenExpired_parses w (trimSpace s)
  unfold Login
  simp only [hflag, hr, hparse]
  by_cases hok : (isTokenExpired w (trimSpace s)).1.2 = none ∧
      (isTokenExpired w (trimSpace s)).1.1 = false
  · simp [hok]
  · simp only [ne_eq, not_true_eq_false, if_false, hok]
    refine ⟨by simp [Result.after], ?_⟩
    intro token _ hno
    exact absurd (by simp [Result.after, loginFlow_reads w]) hno

/-! ## Claim on the token store -/

/-- C16. Token store round trip trims white space: for every token `t`,
`readToken` after a successful `writeToken t` returns `trimSpace t`, which is
`t` without a run of white space at the front and one at the end and has no
white space left at either end, so it is `t` itself exactly when `t` has no
leading or trailing white space; and for every store content `s`, the token
that `Login` decodes is `trimSpace s`, and the token it returns from the store
is `trimSpace s`. -/
theorem token_store_round_trip_trims (w : World) (t : String)
    (hwrite : (writeToken w t).1 = none) (hread : w.readErr = none) :
    readToken (w.afterWrite t) = ((trimSpace t, none), [.expandHome, .readFile]) ∧
    (∃ front back, t.data = front ++ (trimSpace t).data ++ back ∧
      (∀ c ∈ front, isSpace c = true) ∧ (∀ c ∈ back, isSpace c = true)) ∧
    noSurroundingSpace (trimSpace t) = true ∧
    (trimSpace t = t ↔ noSurroundingSpace t = true) ∧
    (∀ s perm, w.tokenFlag = "" → w.store.file = some (s, perm) →
      (Login w).trace.take 3 = [.expandHome, .readFile, .parseToken (trimSpace s)] ∧
      ∀ token, (Login w).outcome = .returns token none →
        Event.readRandom 32 ∉ (Login w).trace → token = trimSpace s) := by
  obtain ⟨hexp, hfile⟩ := writeToken_ok w t hwrite
  refine ⟨?_, ?_, trim_edges t.data, ?_, ?_⟩
  · exact readToken_present (w.afterWrite t) t _ hexp hfile hread
  · refine ⟨t.data.takeWhile isSpace, (t.data.dropWhile isSpace).rtakeWhile isSpace,
      trim_split t.data, ?_, ?_⟩
    · intro c hc
      exact List.mem_takeWhile_imp hc
    · intro c hc
      exact List.mem_rtakeWhile_imp hc
  · constructor
    · intro h
      exact (trim_fixed t.data).mp (congrArg String.data h)
    · intro h
      have := (trim_fixed t.data).mpr h
      show String.mk _ = t
      rw [show ((t.data.dropWhile isSpace).reverse.dropWhile isSpace).reverse = t.data
        from this]
  · intro s perm hflag hstored
    exact login_checks_trimmed w s perm hflag hexp hstored hread

theorem token_store_round_trip_trims_witness :
    readToken (sampleWorld.afterWrite " tok\n") = (("tok", none), [.expandHome, .readFile]) ∧
    noSurroundingSpace " tok\n" = false ∧
    (Login (sampleStored " good\n")).trace.take 3 =
      [.expandHome, .readFile, .parseToken "good"] ∧
    (Login (sampleStored " good\n")).outcome = .returns "good" none :=
  have h := token_store_round_trip_trims sampleWorld " tok\n" (by decide) rfl
  have h2 := token_store_round_trip_trims (sampleStored " good\n") "x" (by decide) rfl
  ⟨h.1.trans (by decide), by decide,
    ((h2.2.2.2.2 " good\n" 0o600 rfl rfl).1).trans (by decide), by decide⟩


/-! ## Splitting and cutting -/

theorem splitChars_ne_nil (sep : Char) (l : List Char) : splitChars sep l ≠ [] := by
  cases l with
  | nil => simp [splitChars]
  | cons c cs =>
    unfold splitChars
    split <;> simp

theorem splitChars_cons_ne (sep c : Char) (cs : List Char) (h : c ≠ sep) :
    ∃ seg segs, splitChars sep cs = seg :: segs ∧
      splitChars sep (c :: cs) = (c :: seg) :: segs := by
  cases hs : splitChars sep cs with
  | nil => exact absurd hs (splitChars_ne_nil sep cs)
  | cons seg segs =>
    refine ⟨seg, segs, rfl, ?_⟩
    rw [splitChars, if_neg h, hs]
    rfl

/-- The segments joined by the separator give the characters back. -/
theorem splitChars_join (sep : Char) (l : List Char) :
    List.intercalate [sep] (splitChars sep l) = l := by
  induction l with
  | nil => rfl
  | cons c cs ih =>
    by_cases h : c = sep
    · rw [splitChars, if_pos h]
      cases hs : splitChars sep cs with
      | nil => exact absurd hs (splitChars_ne_nil sep cs)
      | cons seg segs =>
        rw [hs] at ih
        rw [← ih, h]
        simp [List.intercalate, List.intersperse]
    · obtain ⟨seg, segs, hs, hc⟩ := splitChars_cons_ne sep c cs h
      rw [hs] at ih
      rw [hc, ← ih]
      cases segs <;> simp [List.intercalate, List.intersperse]

/-- No segment holds the separator. -/
theorem splitChars_no_sep (sep : Char) (l : List Char) :
    ∀ seg ∈ splitChars sep l, sep ∉ seg := by
  induction l with
  | nil => simp [splitChars]
  | cons c cs ih =>
    intro seg hseg
    by_cases h : c = sep
    · rw [splitChars, if_pos h, List.mem_cons] at hseg
      rcases hseg with rfl | hseg
      · simp
      · exact ih seg hseg
    · obtain ⟨first, segs, hs, hc⟩ := splitChars_cons_ne sep c cs h
      rw [hc, List.mem_cons] at hseg
      rw [hs] at ih
      rcases hseg with rfl | hseg
      · intro hmem
        rw [List.mem_cons] at hmem
        rcases hmem with hmem | hmem
        · exact h hmem.symm
        · exact ih first (List.mem_cons_self _ _) hmem
      · exact ih seg (List.mem_cons_of_mem _ hseg)

/-- The index of the first separator, against the text before and after it. -/
theorem indexChar_some (sep : Char) (l : List Char) (i : Nat) (h : indexChar sep l = some i) :
    l.contains sep = true ∧
    l.take i = l.takeWhile (fun c => c != sep) ∧
    l.drop (i + 1) = (l.dropWhile (fun c => c != sep)).drop 1 := by
  induction l generalizing i with
  | nil => simp [indexChar] at h
  | cons c cs ih =>
    by_cases hc : c = sep
    · simp only [indexChar, hc, if_true, Option.some.injEq] at h
      subst h
      simp [hc]
    · simp only [indexChar, hc, if_false, Option.map_eq_some'] at h
      obtain ⟨j, hj, rfl⟩ := h
      obtain ⟨h1, h2, h3⟩ := ih j hj
      refine ⟨?_, ?_, ?_⟩
      · simp [h1] at *
        exact Or.inr h1
      · simp [List.takeWhile_cons, hc, h2]
      · simp [List.dropWhile_cons, hc, h3]

theorem indexChar_none (sep : Char) (l : List Char) (h : indexChar sep l = none) :
    l.contains sep = false := by
  induction l with
  | nil => rfl
  | cons c cs ih =>
    by_cases hc : c = sep
    · simp [indexChar, hc] at h
    · simp only [indexChar, hc, if_false, Option.map_eq_none'] at h
      have := ih h
      simp at this ⊢
      exact ⟨fun heq => hc heq.symm, this⟩

/-- What `strings.Cut` gives is the key and the value of the segment. -/
theorem stringsCut_attrOf (seg : String) :
    (match stringsCut seg '=' with
      | (k, v, true) => (k, v)
      | (_, _, false) => (seg, "")) = attrOf seg := by
  unfold stringsCut attrOf
  cases hi : indexChar '=' seg.data with
  | none =>
    have hm : '=' ∉ seg.data := by
      simpa using indexChar_none '=' seg.data hi
    simp [hm]
  | some i =>
    obtain ⟨h1, h2, h3⟩ := indexChar_some '=' seg.data i hi
    have hm : '=' ∈ seg.data := by simpa using h1
    simp [hm, h2, h3]

/-- A segment with an `=` is its key, the `=` and its value, and the key holds
no `=`. -/
theorem attrOf_split (seg : String) (h : seg.data.contains '=' = true) :
    seg.data = (attrOf seg).1.data ++ '=' :: (attrOf seg).2.data ∧
      '=' ∉ (attrOf seg).1.data := by
  have hm : '=' ∈ seg.data := by simpa using h
  have hkey : ∀ l : List Char, '=' ∉ l.takeWhile (fun c => c != '=') := by
    intro l hmem
    have := List.mem_takeWhile_imp hmem
    simp at this
  have hrest : ∀ l : List Char, '=' ∈ l →
      l.dropWhile (fun c => c != '=') =
        '=' :: (l.dropWhile (fun c => c != '=')).drop 1 := by
    intro l
    induction l with
    | nil => simp
    | cons c cs ih =>
      intro hmem
      by_cases hc : c = '='
      · simp [hc]
      · have hcs : '=' ∈ cs := by
          rcases List.mem_cons.mp hmem with h0 | h0
          · exact absurd h0.symm hc
          · exact h0
        simpa [List.dropWhile_cons, hc] using ih hcs
  unfold attrOf
  rw [if_pos h]
  refine ⟨?_, hkey _⟩
  show seg.data = seg.data.takeWhile (fun c => c != '=') ++
    '=' :: (seg.data.dropWhile (fun c => c != '=')).drop 1
  rw [← hrest seg.data hm, List.takeWhile_append_dropWhile]

/-! ## The attribute map -/

theorem mapGet_mapSet (m : List (String × String)) (k v key : String) :
    mapGet (mapSet m k v) key = if k = key then some v else mapGet m key := by
  have hfilter : ∀ m : List (String × String), k ≠ key →
      (m.filter (fun kv => kv.1 != k)).lookup key = m.lookup key := by
    intro m hne
    induction m with
    | nil => rfl
    | cons kv rest ih =>
      obtain ⟨a, b⟩ := kv
      by_cases ha : a = k
      · subst ha
        have hkey : (key == a) = false := by
          simp only [beq_eq_false_iff_ne, ne_eq]
          exact fun h => hne h.symm
        simp [List.filter_cons, List.lookup_cons, ih, hkey]
      · by_cases hb : key = a
        · simp [List.filter_cons, ha, List.lookup_cons, hb]
        · have hkey : (key == a) = false := by simpa using hb
          simp [List.filter_cons, ha, List.lookup_cons, hkey, ih]
  unfold mapGet mapSet
  by_cases hk : k = key
  · simp [hk, List.lookup_cons]
  · have hkey : (key == k) = false := by
      simp only [beq_eq_false_iff_ne, ne_eq]
      exact fun h => hk h.symm
    simp [hk, List.lookup_cons, hkey, hfilter m hk]

/-- One step of the loop of `ParseAttrs` sets the key of the segment to its
value. -/
theorem parseAttrs_step (attrs : List (String × String)) (fs : String) :
    (match stringsCut fs '=' with
      | (k, v, true) => mapSet attrs k v
      | (_, _, false) => mapSet attrs fs "") =
      mapSet attrs (attrOf fs).1 (attrOf fs).2 := by
  rw [← stringsCut_attrOf fs]
  rcases stringsCut fs '=' with ⟨k, v, _ | _⟩ <;> rfl

/-- After the loop of `ParseAttrs`, a key has the value of the last segment
with that key, or what it had before when there is none. -/
theorem parseAttrs_fold (segs : List String) (key : String) :
    ∀ acc : List (String × String),
      mapGet (segs.foldl (fun attrs fs => mapSet attrs (attrOf fs).1 (attrOf fs).2) acc) key =
        match segs.reverse.find? (fun seg => (attrOf seg).1 == key) with
        | some seg => some (attrOf seg).2
        | none => mapGet acc key := by
  induction segs with
  | nil => intro acc; rfl
  | cons fs rest ih =>
    intro acc
    rw [List.foldl_cons, ih, List.reverse_cons, List.find?_append]
    cases hrest : rest.reverse.find? (fun seg => (attrOf seg).1 == key) with
    | some seg => rfl
    | none =>
      rw [mapGet_mapSet]
      by_cases hk : (attrOf fs).1 = key
      · simp [hk]
      · simp [hk]

theorem parseAttrs_get (s : String) (key : String) :
    mapGet (ParseAttrs s) key = (lastSegment s key).map (fun seg => (attrOf seg).2) := by
  have hstep : (fun (attrs : List (String × String)) (fs : String) =>
      match stringsCut fs '=' with
      | (k, v, true) => mapSet attrs k v
      | (_, _, false) => mapSet attrs fs "") =
      fun attrs fs => mapSet attrs (attrOf fs).1 (attrOf fs).2 := by
    funext attrs fs
    exact parseAttrs_step attrs fs
  unfold ParseAttrs lastSegment
  rw [hstep, parseAttrs_fold]
  cases (stringsSplit s ',').reverse.find? (fun seg => (attrOf seg).1 == key) <;> rfl

/-! ## Claim on attributes -/

/-- What `parseFilesystemFlag` returns, by the last segment with the key `id`. -/
theorem parseFilesystemFlag_eq (uuidParse : String → Except GoError UUID) (s : String) :
    parseFilesystemFlag uuidParse s =
      match lastSegment s "id" with
      | none => (uuidNil, some (.new ("missing 'id' attribute in filesystem: " ++ s)))
      | some seg =>
        match uuidParse (attrOf seg).2 with
        | .error _ => (uuidNil, some (.new ("invalid filesystem id: " ++ (attrOf seg).2)))
        | .ok res => (res, none) := by
  unfold parseFilesystemFlag
  simp only [parseAttrs_get]
  cases lastSegment s "id" <;> rfl

/-- C17. Attribute parsing for `--filesystem`: for every string `s`, split at
every comma into segments that hold no comma and joined by commas give `s`
back, a segment with an `=` having as key the text before its first `=` and as
value the text after it, and a segment without one having itself as key and the
empty string as value, `ParseAttrs s` maps a key to the value of the last
segment with that key, and to nothing when there is none. `parseFilesystemFlag
s` returns the error "missing 'id' attribute" when no segment has the key `id`,
the UUID that the value of the last such segment parses to when it does, and
the error "invalid filesystem id" when it does not; so it succeeds exactly when
some segment has the key `id` and the value of the last one parses. -/
theorem parse_attrs_filesystem_flag (uuidParse : String → Except GoError UUID) (s : String) :
    (List.intercalate [','] ((stringsSplit s ',').map String.data) = s.data ∧
      ∀ seg ∈ stringsSplit s ',', ',' ∉ seg.data) ∧
    (∀ seg : String,
      (seg.data.contains '=' = true →
        seg.data = (attrOf seg).1.data ++ '=' :: (attrOf seg).2.data ∧
          '=' ∉ (attrOf seg).1.data) ∧
      (seg.data.contains '=' = false → attrOf seg = (seg, ""))) ∧
    (∀ key, mapGet (ParseAttrs s) key =
      (lastSegment s key).map (fun seg => (attrOf seg).2)) ∧
    (lastSegment s "id" = none ↔ ∀ seg ∈ stringsSplit s ',', (attrOf seg).1 ≠ "id") ∧
    (lastSegment s "id" = none →
      parseFilesystemFlag uuidParse s =
        (uuidNil, some (.new ("missing 'id' attribute in filesystem: " ++ s)))) ∧
    (∀ seg u, lastSegment s "id" = some seg → uuidParse (attrOf seg).2 = .ok u →
      parseFilesystemFlag uuidParse s = (u, none)) ∧
    (∀ seg e, lastSegment s "id" = some seg → uuidParse (attrOf seg).2 = .error e →
      parseFilesystemFlag uuidParse s =
        (uuidNil, some (.new ("invalid filesystem id: " ++ (attrOf seg).2)))) ∧
    ((parseFilesystemFlag uuidParse s).2 = none ↔
      ∃ seg u, lastSegment s "id" = some seg ∧ uuidParse (attrOf seg).2 = .ok u) := by
  have hflag := parseFilesystemFlag_eq uuidParse s
  refine ⟨⟨?_, ?_⟩, ?_, parseAttrs_get s, ?_, ?_, ?_, ?_, ?_⟩
  · have hmap : (stringsSplit s ',').map String.data = splitChars ',' s.data := by
      unfold stringsSplit
      rw [List.map_map]
      exact List.map_id _
    rw [hmap, splitChars_join]
  · intro seg hseg
    unfold stringsSplit at hseg
    obtain ⟨chars, hchars, rfl⟩ := List.mem_map.mp hseg
    exact splitChars_no_sep ',' s.data chars hchars
  · intro seg
    refine ⟨attrOf_split seg, ?_⟩
    intro hno
    unfold attrOf
    rw [hno]
    rfl
  · unfold lastSegment
    simp
  · intro hnone
    rw [hflag, hnone]
  · intro seg u hsome hok
    rw [hflag, hsome]
    simp only [hok]
  · intro seg e hsome herr
    rw [hflag, hsome]
    simp only [herr]
  · rw [hflag]
    constructor
    · intro h
      cases hl : lastSegment s "id" with
      | none => rw [hl] at h; simp at h
      | some seg =>
        rw [hl] at h
        cases hu : uuidParse (attrOf seg).2 with
        | error e => simp [hu] at h
        | ok u => exact ⟨seg, u, rfl, hu⟩
    · rintro ⟨seg, u, hl, hu⟩
      rw [hl]
      simp only [hu]

theorem parse_attrs_filesystem_flag_witness :
    mapGet (ParseAttrs "name=a,id=zz,flag,id=00000000-0000-0000-0000-000000000001") "id" =
      some "00000000-0000-0000-0000-000000000001" ∧
    parseFilesystemFlag sampleUUIDParse
        "name=a,id=zz,flag,id=00000000-0000-0000-0000-000000000001" =
      (⟨List.replicate 15 0 ++ [1]⟩, none) ∧
    parseFilesystemFlag sampleUUIDParse "name=a, id=x" =
      (uuidNil, some (.new "missing 'id' attribute in filesystem: name=a, id=x")) ∧
    parseFilesystemFlag sampleUUIDParse "id" =
      (uuidNil, some (.new "invalid filesystem id: ")) :=
  have h := parse_attrs_filesystem_flag sampleUUIDParse
    "name=a,id=zz,flag,id=00000000-0000-0000-0000-000000000001"
  have h2 := parse_attrs_filesystem_flag sampleUUIDParse "name=a, id=x"
  have h3 := parse_attrs_filesystem_flag sampleUUIDParse "id"
  ⟨(h.2.2.1 "id").trans (by decide),
    h.2.2.2.2.2.1 "id=00000000-0000-0000-0000-000000000001" _ (by decide) rfl,
    h2.2.2.2.2.1 (by decide),
    (h3.2.2.2.2.2.2.1 "id" (.ext false) (by decide) rfl).trans (by decide)⟩


end Fluidctl
